import Mathlib

/-
  Verification development for the `newtd` repository
  (src/codebase_blueprint.py and src/dependency_analyzer.py).

  The Python sources are shallowly embedded below:
  * string/character helpers mirror the Python builtins used by the code;
  * a small regex engine interprets the module-level pattern tables
    (`CLASS_PATTERNS`, `FUNCTION_PATTERNS`, `LOOP_PATTERNS`,
    `VARIABLE_PATTERNS`), each entry transcribed from its source string;
  * `NodeVisitor` (the precise, AST-based extractor) is embedded as a
    recursive visitor over an embedded Python AST;
  * `analyze_file_with_regex` (the heuristic extractor) is embedded as a
    line-by-line state machine;
  * `track_class_usage`, `analyze_dependencies` and the statistics code of
    `analyze_codebase_blueprint` are embedded as pure functions, with the
    external regular-expression library and the filesystem passed in as
    function parameters.
-/

namespace NB

/-! ## String and character helpers (Python builtins used by the source) -/

/-- ASCII approximation of Python's regex `\w` class (identifier characters). -/
def isWordChar (c : Char) : Bool := c.isAlpha || c.isDigit || c == '_'

/-- ASCII whitespace, Python's regex `\s` class and `str.strip` default set. -/
def isSpaceChar (c : Char) : Bool :=
  c == ' ' || c == '\t' || c == '\n' || c == '\r' || c == '\x0b' || c == '\x0c'

def strOfList (cs : List Char) : String := String.mk cs

/-- Python's `needle in hay` substring test. -/
def strContains (hay needle : String) : Bool :=
  (List.range (hay.toList.length + 1)).any
    (fun i => (hay.toList.drop i).take needle.toList.length == needle.toList)

/-- Python's `line.count(c)` for a single character. -/
def countChar (s : String) (c : Char) : Nat := (s.toList.filter (fun d => d == c)).length

def splitOnCharAux (sep : Char) : List Char → List Char → List String
  | [], cur => [strOfList cur.reverse]
  | c :: rest, cur =>
      if c = sep then strOfList cur.reverse :: splitOnCharAux sep rest []
      else splitOnCharAux sep rest (c :: cur)

/-- Python's `s.split(sep)` for a single-character separator (keeps empty parts). -/
def splitOnChar (sep : Char) (s : String) : List String := splitOnCharAux sep s.toList []

/-- Python's `s.strip()` with the default (whitespace) character set. -/
def strip (s : String) : String :=
  strOfList (((s.toList.dropWhile isSpaceChar).reverse.dropWhile isSpaceChar).reverse)

def splitWsAux : List Char → List Char → List String
  | [], cur => if cur.isEmpty then [] else [strOfList cur.reverse]
  | c :: rest, cur =>
      if isSpaceChar c then
        if cur.isEmpty then splitWsAux rest []
        else strOfList cur.reverse :: splitWsAux rest []
      else splitWsAux rest (c :: cur)

/-- Python's `s.split()` (split on whitespace runs, no empty fragments). -/
def splitWsTokens (s : String) : List String := splitWsAux s.toList []

/-- Python's `s.lower()` (ASCII). -/
def lowerStr (s : String) : String := strOfList (s.toList.map Char.toLower)

/-- `os.path.basename` for POSIX paths: the part after the last `/`. -/
def basenameStr (p : String) : String :=
  strOfList (p.toList.foldl (fun acc c => if c = '/' then [] else acc ++ [c]) [])

def lastDotIdx (cs : List Char) : Option Nat :=
  (List.range cs.length).foldl
    (fun acc i => if cs.get? i = some '.' then some i else acc) none

/-- The extension part of `os.path.splitext(p)`: the suffix of the basename from
its last `.`, empty when the basename has no dot or only leading dots. -/
def splitextExt (p : String) : String :=
  let cs := (basenameStr p).toList
  match lastDotIdx cs with
  | none => ""
  | some i => if (cs.take i).any (fun c => c ≠ '.') then strOfList (cs.drop i) else ""

/-- Association-list lookup used for the module-level pattern dictionaries. -/
def lookupTab {α : Type} : List (String × α) → String → Option α
  | [], _ => none
  | (k, v) :: rest, key => if k = key then some v else lookupTab rest key

/-! ## A small regex engine

The Python code consults the `re` module on the fixed pattern strings of its
module-level tables.  Each pattern string is transcribed below into a `Regex`
syntax tree; the engine is a backtracking matcher that returns candidate
matches in Python's preference order (leftmost alternative first, greedy
quantifiers longest first), so the head of the result list is the match
`re.search` would produce.  Recursion is paced by a fuel argument so that the
matcher is structurally recursive and kernel-evaluable; `matchFuel` always
provides enough fuel, since every recursion level consumes one unit and the
recursion depth is bounded by the pattern size times the string length. -/

inductive ClsItem where
  | ch (c : Char)
  | range (lo hi : Char)
  | wordi
  | spacei
  | digiti
  | anyi

structure CharCls where
  neg : Bool
  items : List ClsItem

def itemMatch (c : Char) : ClsItem → Bool
  | .ch d => c == d
  | .range lo hi => decide (lo ≤ c) && decide (c ≤ hi)
  | .wordi => isWordChar c
  | .spacei => isSpaceChar c
  | .digiti => c.isDigit
  | .anyi => c != '\n'

def clsMatch (cc : CharCls) (c : Char) : Bool :=
  let b := cc.items.any (itemMatch c)
  if cc.neg then !b else b

inductive Regex where
  | eps
  | cls (cc : CharCls)
  | cat (a b : Regex)
  | alt (a b : Regex)
  | star (r : Regex)
  | opt (r : Regex)
  | group (idx : Nat) (r : Regex)

def rsize : Regex → Nat
  | .eps => 1
  | .cls _ => 1
  | .cat a b => 1 + rsize a + rsize b
  | .alt a b => 1 + rsize a + rsize b
  | .star r => 1 + rsize r
  | .opt r => 1 + rsize r
  | .group _ r => 1 + rsize r

/-- Number of capture groups in a pattern, Python's `len(m.groups())`. -/
def numGroups : Regex → Nat
  | .eps => 0
  | .cls _ => 0
  | .cat a b => numGroups a + numGroups b
  | .alt a b => numGroups a + numGroups b
  | .star r => numGroups r
  | .opt r => numGroups r
  | .group _ r => 1 + numGroups r

def setCap : List (Nat × String) → Nat → String → List (Nat × String)
  | [], i, v => [(i, v)]
  | (j, w) :: rest, i, v => if j = i then (j, v) :: rest else (j, w) :: setCap rest i v

def getCap : List (Nat × String) → Nat → Option String
  | [], _ => none
  | (j, w) :: rest, i => if j = i then some w else getCap rest i

/-- Backtracking matcher: all candidate (remaining-input, captures) pairs in
Python's preference order. -/
def rmatch : Nat → Regex → List Char → List (Nat × String) →
    List (List Char × List (Nat × String))
  | 0, _, _, _ => []
  | fuel + 1, r, s, caps =>
    match r with
    | .eps => [(s, caps)]
    | .cls cc =>
        match s with
        | [] => []
        | c :: rest => if clsMatch cc c then [(rest, caps)] else []
    | .cat a b => (rmatch fuel a s caps).flatMap (fun p => rmatch fuel b p.1 p.2)
    | .alt a b => rmatch fuel a s caps ++ rmatch fuel b s caps
    | .opt r1 => rmatch fuel r1 s caps ++ [(s, caps)]
    | .star r1 =>
        ((rmatch fuel r1 s caps).filter (fun p => p.1.length < s.length)).flatMap
          (fun p => rmatch fuel (.star r1) p.1 p.2) ++ [(s, caps)]
    | .group i r1 =>
        (rmatch fuel r1 s caps).map
          (fun p => (p.1, setCap p.2 i (strOfList (s.take (s.length - p.1.length)))))

def matchFuel (r : Regex) (s : List Char) : Nat := (rsize r + 2) * (s.length + 2)

/-- The matched text (`m.group(0)`) and the captures of a match. -/
structure MatchRes where
  matched : String
  caps : List (Nat × String)

def reMatchAt (r : Regex) (s : List Char) : Option MatchRes :=
  match rmatch (matchFuel r s) r s [] with
  | [] => none
  | p :: _ => some ⟨strOfList (s.take (s.length - p.1.length)), p.2⟩

/-- `re.search` for the table patterns: every table pattern's source starts
with `^` and `re.MULTILINE` is never passed, so the search can only match at
position 0.  The transcriptions below therefore omit the leading `^` and
matching is done at the start of the line only. -/
def reSearchAnchored (r : Regex) (line : String) : Option MatchRes :=
  reMatchAt r line.toList

def reSearchScanAux (r : Regex) : List Char → Option MatchRes
  | [] => reMatchAt r []
  | c :: rest =>
      match reMatchAt r (c :: rest) with
      | some m => some m
      | none => reSearchScanAux r rest

/-- `re.search` for unanchored patterns: leftmost match position wins. -/
def reSearchScan (r : Regex) (s : String) : Option MatchRes :=
  reSearchScanAux r s.toList

/-- Python truthiness of `m.group(i)`: the group participated and is nonempty. -/
def capTruthy (caps : List (Nat × String)) (i : Nat) : Bool :=
  match getCap caps i with
  | none => false
  | some s => !s.isEmpty

def capStr (caps : List (Nat × String)) (i : Nat) : String :=
  (getCap caps i).getD ""

/-! ## Pattern-transcription combinators -/

def rchr (c : Char) : Regex := .cls ⟨false, [.ch c]⟩

/-- A literal string, character by character. -/
def rlit (s : String) : Regex := (s.toList.map rchr).foldr Regex.cat .eps

def rcat (l : List Regex) : Regex := l.foldr Regex.cat .eps

def ralt3 (a b c : Regex) : Regex := .alt a (.alt b c)

def rplus (r : Regex) : Regex := .cat r (.star r)

def ccls (items : List ClsItem) : Regex := .cls ⟨false, items⟩

def ncls (items : List ClsItem) : Regex := .cls ⟨true, items⟩

/-- `\s*` -/
def ws0 : Regex := .star (ccls [.spacei])

/-- `\s+` -/
def ws1 : Regex := rplus (ccls [.spacei])

/-- `\w+` -/
def word1 : Regex := rplus (ccls [.wordi])

def grp (i : Nat) (r : Regex) : Regex := .group i r

/-- `[\w_][\w\d_]*`, the identifier shape of the variable patterns. -/
def identVar : Regex := .cat (ccls [.wordi, .ch '_']) (.star (ccls [.wordi, .digiti, .ch '_']))

/-! ## The module-level pattern tables of codebase_blueprint.py

Every entry transcribes the corresponding pattern string of the source,
omitting the leading `^` (see `reSearchAnchored`). -/

/-- `CLASS_PATTERNS` of codebase_blueprint.py, each value the transcription of
the source's regex for that extension. -/
def CLASS_PATTERNS : List (String × Regex) := [
  (".py", rcat [ws0, rlit "class", ws1, grp 1 word1,
    .opt (rcat [rchr '(', rplus (ncls [.ch ')']), rchr ')']), ws0, rchr ':']),
  (".js", rcat [ws0, .opt (rcat [rlit "export", ws1]), .opt (rcat [rlit "abstract", ws1]),
    rlit "class", ws1, grp 1 word1,
    .opt (rcat [ws1, rlit "extends", ws1, rplus (ccls [.wordi, .ch '.'])]), ws0, rchr '\x7b']),
  (".ts", rcat [ws0, .opt (rcat [rlit "export", ws1]), .opt (rcat [rlit "abstract", ws1]),
    rlit "class", ws1, grp 1 word1,
    .opt (rcat [ws1, rlit "extends", ws1, rplus (ccls [.wordi, .ch '.'])]),
    .opt (rcat [ws1, rlit "implements", ws1, rplus (ccls [.wordi, .ch '.', .ch ',', .spacei])]),
    ws0, rchr '\x7b']),
  (".java", rcat [ws0, .opt (ralt3 (rlit "public") (rlit "private") (rlit "protected")), ws0,
    .opt (.alt (rlit "abstract") (rlit "final")), ws0, rlit "class", ws1, grp 1 word1,
    .opt (rcat [ws1, rlit "extends", ws1, rplus (ccls [.wordi, .ch '.'])]),
    .opt (rcat [ws1, rlit "implements", ws1, rplus (ccls [.wordi, .ch '.', .ch ',', .spacei])]),
    ws0, rchr '\x7b']),
  (".cs", rcat [ws0,
    .opt (.alt (rlit "public") (ralt3 (rlit "private") (rlit "protected") (rlit "internal"))), ws0,
    .opt (ralt3 (rlit "abstract") (rlit "sealed") (rlit "static")), ws0,
    rlit "class", ws1, grp 1 word1,
    .opt (rcat [ws0, rchr ':', ws0, rplus (ccls [.wordi, .ch '.', .ch ',', .spacei])]),
    ws0, rchr '\x7b']),
  (".cpp", rcat [ws0, .alt (rlit "class") (rlit "struct"), ws1, grp 1 word1,
    .opt (rcat [ws0, rchr ':', ws0, ralt3 (rlit "public") (rlit "private") (rlit "protected"),
      ws1, rplus (ccls [.wordi, .ch '.'])]),
    ws0, rchr '\x7b']),
  (".c", rcat [ws0, rlit "typedef", ws1, rlit "struct", ws1, grp 1 word1]),
  (".dart", rcat [ws0, .opt (rcat [rlit "abstract", ws1]), rlit "class", ws1, grp 1 word1,
    .opt (rcat [ws1, rlit "extends", ws1, rplus (ccls [.wordi, .ch '.'])]),
    .opt (rcat [ws1, rlit "implements", ws1, rplus (ccls [.wordi, .ch '.', .ch ',', .spacei])]),
    ws0, rchr '\x7b']),
  (".rs", rcat [ws0, .opt (rcat [rlit "pub", ws1]),
    ralt3 (rlit "struct") (rlit "enum") (rlit "impl"), ws1, grp 1 word1]),
  (".go", rcat [ws0, rlit "type", ws1, grp 1 word1, ws1, rlit "struct", ws0, rchr '\x7b']),
  (".php", rcat [ws0, .opt (rcat [rlit "abstract", ws1]), .opt (rcat [rlit "final", ws1]),
    rlit "class", ws1, grp 1 word1,
    .opt (rcat [ws1, rlit "extends", ws1, rplus (ccls [.wordi, .ch '\\'])]),
    .opt (rcat [ws1, rlit "implements", ws1, rplus (ccls [.wordi, .ch '\\', .ch ','])]),
    ws0, rchr '\x7b']),
  (".kt", rcat [ws0,
    .opt (.alt (rcat [rlit "data", ws1]) (ralt3 (rcat [rlit "sealed", ws1])
      (rcat [rlit "abstract", ws1]) (rcat [rlit "open", ws1]))),
    ralt3 (rlit "class") (rlit "interface") (rlit "object"), ws1, grp 1 word1,
    .opt (rcat [ws0, rchr ':', ws0, rplus (ccls [.wordi, .ch '.', .ch ',', .spacei])]),
    ws0, rchr '\x7b'])]

/-- `FUNCTION_PATTERNS` of codebase_blueprint.py. -/
def FUNCTION_PATTERNS : List (String × Regex) := [
  (".py", rcat [ws0, .opt (rcat [rlit "async", ws1]),
    .alt (rlit "def") (rlit "async def"), ws1, grp 1 word1, ws0, rchr '(']),
  (".js", rcat [ws0, .opt (rcat [rlit "export", ws1]), .opt (rcat [rlit "async", ws1]),
    ralt3 (rcat [rlit "function", ws1, grp 1 word1])
      (rcat [rlit "const", ws1, grp 2 word1, ws0, rchr '=', ws0,
        .opt (rcat [rlit "async", ws1]), ws0, rchr '('])
      (rcat [grp 3 word1, ws0, rchr ':', ws0, rchr '(', .star (ncls [.ch ')']), rchr ')',
        ws0, rlit "=>"])]),
  (".ts", rcat [ws0, .opt (rcat [rlit "export", ws1]), .opt (rcat [rlit "async", ws1]),
    ralt3 (rcat [rlit "function", ws1, grp 1 word1])
      (rcat [.opt (ralt3 (rlit "public") (rlit "private") (rlit "protected")), ws0,
        .opt (rcat [rlit "async", ws1]), grp 2 word1, ws0, rchr '('])
      (rcat [rlit "const", ws1, grp 3 word1, ws0, ccls [.ch ':', .ch '='], ws0,
        .opt (rcat [rlit "async", ws1])])]),
  (".java", rcat [ws0, .opt (ralt3 (rlit "public") (rlit "private") (rlit "protected")), ws0,
    .opt (rlit "static"), ws0, .opt (rcat [rplus (ccls [.wordi, .ch '<', .ch '>']), ws1]),
    grp 1 word1, ws0, rchr '(']),
  (".cs", rcat [ws0,
    .opt (.alt (rlit "public") (ralt3 (rlit "private") (rlit "protected") (rlit "internal"))), ws0,
    .opt (.alt (rlit "static") (ralt3 (rlit "virtual") (rlit "override") (rlit "async"))), ws0,
    .opt (rcat [rplus (ccls [.wordi, .ch '<', .ch '>']), ws1]), grp 1 word1, ws0, rchr '(']),
  (".cpp", .alt
    (rcat [ws0, .opt (rcat [rplus (ccls [.wordi, .ch ':', .ch '<', .ch '>']), ws1]),
      grp 1 word1, ws0, rlit "::", ws0, grp 2 word1, ws0, rchr '('])
    (rcat [ws0, .opt (rcat [rlit "inline", ws1]),
      .opt (rcat [rplus (ccls [.wordi, .ch ':', .ch '<', .ch '>']), ws1]),
      grp 3 word1, ws0, rchr '('])),
  (".c", rcat [ws0, .opt (rcat [rplus (ccls [.wordi, .spacei]), ws1]),
    grp 1 word1, ws0, rchr '(']),
  (".dart", rcat [ws0, .opt (rcat [rplus (ccls [.wordi, .ch '<', .ch '>']), ws1]),
    grp 1 word1, ws0, rchr '(', .star (ncls [.ch ')']), rchr ')', ws0,
    .opt (rcat [rchr ':', ws0, rplus (ccls [.wordi, .ch '<', .ch '>'])]), ws0, rchr '\x7b']),
  (".rs", rcat [ws0, .opt (rcat [rlit "pub", ws1]), .opt (rcat [rlit "async", ws1]),
    rlit "fn", ws1, grp 1 word1, ws0, rchr '(']),
  (".go", rcat [ws0, rlit "func", ws1,
    .opt (rcat [rchr '(', ws0, rplus (ccls [.wordi, .ch '*']), ws1, rplus (ccls [.wordi]),
      ws0, rchr ')', ws1]),
    grp 1 word1, ws0, rchr '(']),
  (".php", rcat [ws0, .opt (ralt3 (rlit "public") (rlit "private") (rlit "protected")), ws0,
    .opt (rlit "static"), ws0, .alt (rcat [rlit "function", ws1]) (rcat [rlit "fn", ws1]),
    grp 1 word1, ws0, rchr '(']),
  (".kt", rcat [ws0,
    .alt (rcat [rlit "fun", ws1]) (ralt3 (rcat [rlit "override", ws1, rlit "fun", ws1])
      (rcat [rlit "private", ws1, rlit "fun", ws1]) (rcat [rlit "public", ws1, rlit "fun", ws1])),
    grp 1 word1, ws0, rchr '('])]

/-- `LOOP_PATTERNS` of codebase_blueprint.py.  Each entry keeps the original
pattern source string (the code inspects it with `'for' in pattern.lower()`
and `'async' in pattern.lower()`) next to its transcription. -/
def LOOP_PATTERNS : List (String × List (String × Regex)) := [
  (".py", [("^\\s*for\\s+", rcat [ws0, rlit "for", ws1]),
           ("^\\s*while\\s+", rcat [ws0, rlit "while", ws1]),
           ("^\\s*async\\s+for\\s+", rcat [ws0, rlit "async", ws1, rlit "for", ws1])]),
  (".js", [("^\\s*for\\s*\\(", rcat [ws0, rlit "for", ws0, rchr '(']),
           ("^\\s*while\\s*\\(", rcat [ws0, rlit "while", ws0, rchr '(']),
           ("^\\s*for\\s*\\([\\w\\s]+\\s+in\\s+",
             rcat [ws0, rlit "for", ws0, rchr '(', rplus (ccls [.wordi, .spacei]), ws1,
               rlit "in", ws1]),
           ("^\\s*for\\s*\\([\\w\\s]+\\s+of\\s+",
             rcat [ws0, rlit "for", ws0, rchr '(', rplus (ccls [.wordi, .spacei]), ws1,
               rlit "of", ws1])]),
  (".ts", [("^\\s*for\\s*\\(", rcat [ws0, rlit "for", ws0, rchr '(']),
           ("^\\s*while\\s*\\(", rcat [ws0, rlit "while", ws0, rchr '(']),
           ("^\\s*for\\s*\\([\\w\\s]+\\s+in\\s+",
             rcat [ws0, rlit "for", ws0, rchr '(', rplus (ccls [.wordi, .spacei]), ws1,
               rlit "in", ws1]),
           ("^\\s*for\\s*\\([\\w\\s]+\\s+of\\s+",
             rcat [ws0, rlit "for", ws0, rchr '(', rplus (ccls [.wordi, .spacei]), ws1,
               rlit "of", ws1])]),
  (".java", [("^\\s*for\\s*\\(", rcat [ws0, rlit "for", ws0, rchr '(']),
             ("^\\s*while\\s*\\(", rcat [ws0, rlit "while", ws0, rchr '(']),
             ("^\\s*for\\s*\\([\\w\\s]+\\s*:\\s*",
               rcat [ws0, rlit "for", ws0, rchr '(', rplus (ccls [.wordi, .spacei]), ws0,
                 rchr ':', ws0])]),
  (".cs", [("^\\s*for\\s*\\(", rcat [ws0, rlit "for", ws0, rchr '(']),
           ("^\\s*while\\s*\\(", rcat [ws0, rlit "while", ws0, rchr '(']),
           ("^\\s*foreach\\s*\\(", rcat [ws0, rlit "foreach", ws0, rchr '('])]),
  (".cpp", [("^\\s*for\\s*\\(", rcat [ws0, rlit "for", ws0, rchr '(']),
            ("^\\s*while\\s*\\(", rcat [ws0, rlit "while", ws0, rchr '(']),
            ("^\\s*for\\s*\\([\\w\\s]+\\s*:\\s*",
              rcat [ws0, rlit "for", ws0, rchr '(', rplus (ccls [.wordi, .spacei]), ws0,
                rchr ':', ws0])]),
  (".c", [("^\\s*for\\s*\\(", rcat [ws0, rlit "for", ws0, rchr '(']),
          ("^\\s*while\\s*\\(", rcat [ws0, rlit "while", ws0, rchr '('])]),
  (".dart", [("^\\s*for\\s*\\(", rcat [ws0, rlit "for", ws0, rchr '(']),
             ("^\\s*while\\s*\\(", rcat [ws0, rlit "while", ws0, rchr '(']),
             ("^\\s*for\\s*\\([\\w\\s]+\\s+in\\s+",
               rcat [ws0, rlit "for", ws0, rchr '(', rplus (ccls [.wordi, .spacei]), ws1,
                 rlit "in", ws1])]),
  (".rs", [("^\\s*for\\s+", rcat [ws0, rlit "for", ws1]),
           ("^\\s*while\\s+", rcat [ws0, rlit "while", ws1]),
           ("^\\s*loop\\s+", rcat [ws0, rlit "loop", ws1])]),
  (".go", [("^\\s*for\\s+", rcat [ws0, rlit "for", ws1]),
           ("^\\s*for\\s+[\\w]+\\s*:=\\s*range",
             rcat [ws0, rlit "for", ws1, rplus (ccls [.wordi]), ws0, rlit ":=", ws0,
               rlit "range"])]),
  (".php", [("^\\s*for\\s*\\(", rcat [ws0, rlit "for", ws0, rchr '(']),
            ("^\\s*while\\s*\\(", rcat [ws0, rlit "while", ws0, rchr '(']),
            ("^\\s*foreach\\s*\\(", rcat [ws0, rlit "foreach", ws0, rchr '('])]),
  (".kt", [("^\\s*for\\s*\\(", rcat [ws0, rlit "for", ws0, rchr '(']),
           ("^\\s*while\\s*\\(", rcat [ws0, rlit "while", ws0, rchr '(']),
           ("^\\s*for\\s*\\([\\w\\s]+\\s+in\\s+",
             rcat [ws0, rlit "for", ws0, rchr '(', rplus (ccls [.wordi, .spacei]), ws1,
               rlit "in", ws1])])]

/-- `VARIABLE_PATTERNS` of codebase_blueprint.py. -/
def VARIABLE_PATTERNS : List (String × List Regex) := [
  (".py", [rcat [ws0, grp 1 identVar, ws0, rchr '='],
           rcat [ws0, grp 1 identVar, ws0, rchr ':', ws0,
             rplus (ccls [.wordi, .ch '[', .ch ']'])]]),
  (".js", [rcat [ws0, ralt3 (rlit "var") (rlit "let") (rlit "const"), ws1,
            grp 1 (.cat (ccls [.wordi, .ch '_', .ch '$'])
              (.star (ccls [.wordi, .digiti, .ch '_', .ch '$'])))]]),
  (".ts", [rcat [ws0, ralt3 (rlit "var") (rlit "let") (rlit "const"), ws1,
            grp 1 (.cat (ccls [.wordi, .ch '_', .ch '$'])
              (.star (ccls [.wordi, .digiti, .ch '_', .ch '$']))),
            ws0, ccls [.ch ':', .ch '=']]]),
  (".java", [rcat [ws0,
            rcat [rplus (ccls [.wordi, .ch '<', .ch '>', .ch '[', .ch ']', .spacei]), ws1],
            grp 1 identVar, ws0, ccls [.ch '=', .ch ';']]]),
  (".cs", [rcat [ws0,
            rcat [rplus (ccls [.wordi, .ch '<', .ch '>', .ch '[', .ch ']', .spacei]), ws1],
            grp 1 identVar, ws0, ccls [.ch '=', .ch ';']]]),
  (".cpp", [rcat [ws0,
            rcat [rplus (ccls [.wordi, .ch ':', .ch '<', .ch '>', .ch '[', .ch ']', .spacei,
              .ch '&', .ch '*']), ws1],
            grp 1 identVar, ws0, ccls [.ch '=', .ch ';']]]),
  (".c", [rcat [ws0,
            rcat [rplus (ccls [.wordi, .spacei, .ch '*', .ch '[', .ch ']']), ws1],
            grp 1 identVar, ws0, ccls [.ch '=', .ch ';']]]),
  (".dart", [rcat [ws0,
            .alt (rlit "var") (ralt3 (rlit "final") (rlit "const")
              (rcat [rplus (ccls [.wordi, .ch '<', .ch '>']), ws1])),
            grp 1 identVar, ws0, ccls [.ch ':', .ch '=']]]),
  (".rs", [rcat [ws0,
            ralt3 (rlit "let") (rcat [rlit "mut", ws1, rlit "let"]) (rlit "const"), ws1,
            grp 1 identVar, ws0, ccls [.ch ':', .ch '=']]]),
  (".go", [rcat [ws0, .alt (rlit "var") (rlit "const"), ws1,
            grp 1 identVar, ws0, ccls [.wordi, .ch '=']]]),
  (".php", [rcat [ws0, rchr '$', grp 1 identVar]]),
  (".kt", [rcat [ws0, .alt (rlit "var") (rlit "val"), ws1, grp 1 identVar]])]

/-! ## The data model: `CodeStructure` and its record shapes -/

/-- A class record as appended to `CodeStructure.classes` (keys `name`,
`line`, `methods`, `members`, `inheritance`, `loc`). -/
structure ClassRec where
  name : String
  line : Nat
  methods : List String
  members : List String
  inheritance : List String
  loc : Nat
deriving DecidableEq, Repr

/-- A function record (keys `name`, `line`, `parameters`, `async`). -/
structure FuncRec where
  name : String
  line : Nat
  parameters : List String
  async : Bool
deriving DecidableEq, Repr

/-- A module-level variable record (keys `name`, `line`). -/
structure VarRec where
  name : String
  line : Nat
deriving DecidableEq, Repr

/-- A loop record (keys `type`, `line`). -/
structure LoopRec where
  typ : String
  line : Nat
deriving DecidableEq, Repr

/-- A per-function variable-usage record (keys `var`, `line`, `type`). -/
structure UsageRec where
  var : String
  line : Nat
  typ : String
deriving DecidableEq, Repr

/-- The `CodeStructure` class of codebase_blueprint.py.  The two `defaultdict`
fields are modelled as insertion-ordered association lists. -/
structure CodeStructure where
  file_path : String
  classes : List ClassRec
  functions : List FuncRec
  vars : List VarRec
  loops : List LoopRec
  imports : List String
  class_usage : List (String × List String)
  function_variable_usage : List (String × List UsageRec)
deriving DecidableEq, Repr

/-- A freshly constructed `CodeStructure(file_path)`. -/
def CodeStructure.empty (fp : String) : CodeStructure := ⟨fp, [], [], [], [], [], [], []⟩

/-- The dedup guard of the variable captures:
`any(v['name'] == name and abs(v['line'] - line_num) < window for v in vars)`. -/
def varWindowHit (vars : List VarRec) (name : String) (line_num window : Nat) : Bool :=
  vars.any (fun v => v.name == name && ((v.line : Int) - (line_num : Int)).natAbs < window)

/-! ## The heuristic extractor: `analyze_file_with_regex` -/

/-- The loop-local state of `analyze_file_with_regex`: the structure being
built plus `current_class`, `in_class` and `brace_count`. -/
structure RegexSt where
  struct : CodeStructure
  current_class : Option Nat
  in_class : Bool
  brace_count : Int
deriving DecidableEq, Repr

def updateAt {α : Type} : List α → Nat → (α → α) → List α
  | [], _, _ => []
  | x :: rest, 0, f => f x :: rest
  | x :: rest, n + 1, f => x :: updateAt rest n f

/-- The unanchored pattern `\(([^)]+)\)` of the inheritance extraction. -/
def parenPlusPat : Regex := rcat [rchr '(', grp 1 (rplus (ncls [.ch ')'])), rchr ')']

/-- The unanchored pattern `\(([^)]*)\)` of the parameter extraction. -/
def parenStarPat : Regex := rcat [rchr '(', grp 1 (.star (ncls [.ch ')'])), rchr ')']

/-- Inheritance extraction of the class block: a parenthesized clause on the
same line, split on commas and stripped; `[]` when the line has no parens. -/
def extract_inheritance (line : String) : List String :=
  if strContains line "(" && strContains line ")" then
    match reSearchScan parenPlusPat line with
    | some m => (splitOnChar ',' (capStr m.caps 1)).map strip
    | none => []
  else []

/-- Parameter extraction of the function block: the first parenthesized text,
split on commas, empty fragments dropped, first whitespace token of each kept. -/
def extract_params (line : String) : List String :=
  match reSearchScan parenStarPat line with
  | none => []
  | some m =>
      ((splitOnChar ',' (capStr m.caps 1)).filter (fun p => strip p ≠ "")).map
        (fun p => (splitWsTokens (strip p)).headD "")

/-- The function-name selection:
`m.group(1) if m.group(1) else (m.group(2) if len(m.groups()) > 1 and m.group(2)
else m.group(0).split()[0])`. -/
def func_name_of_match (pat : Regex) (m : MatchRes) : String :=
  if capTruthy m.caps 1 then capStr m.caps 1
  else if decide (numGroups pat > 1) && capTruthy m.caps 2 then capStr m.caps 2
  else (splitWsTokens m.matched).headD ""

/-- Class-extraction block of the per-line loop (source lines 355-377). -/
def classBlock (ext : String) (line_num : Nat) (line : String) (st : RegexSt) : RegexSt :=
  match lookupTab CLASS_PATTERNS ext with
  | none => st
  | some pat =>
    match reSearchAnchored pat line with
    | none => st
    | some m =>
      let cs := st.struct.classes ++
        [⟨capStr m.caps 1, line_num, [], [], extract_inheritance line, 0⟩]
      { st with
        struct := { st.struct with classes := cs },
        current_class := some (cs.length - 1),
        in_class := true,
        brace_count := (countChar line '\x7b' : Int) - (countChar line '\x7d' : Int) }

/-- Function-extraction block of the per-line loop (source lines 380-404). -/
def funcBlock (ext : String) (line_num : Nat) (line : String) (st : RegexSt) : RegexSt :=
  match lookupTab FUNCTION_PATTERNS ext with
  | none => st
  | some pat =>
    match reSearchAnchored pat line with
    | none => st
    | some m =>
      let func_name := func_name_of_match pat m
      let func_info : FuncRec :=
        ⟨func_name, line_num, extract_params line, strContains line "async"⟩
      if st.in_class then
        match st.current_class with
        | some idx =>
            { st with struct := { st.struct with classes :=
                (updateAt st.struct.classes idx
                  (fun c => { c with methods := c.methods ++ [func_name] })) } }
        | none =>
            { st with struct :=
                { st.struct with functions := st.struct.functions ++ [func_info] } }
      else
        { st with struct :=
            { st.struct with functions := st.struct.functions ++ [func_info] } }

def loopTypeOf (src : String) : String :=
  if strContains (lowerStr src) "async" then "async_for"
  else if strContains (lowerStr src) "for" then "for"
  else "while"

def firstLoopHit : List (String × Regex) → String → Option String
  | [], _ => none
  | (src, r) :: rest, line =>
      if (reSearchAnchored r line).isSome then some (loopTypeOf src)
      else firstLoopHit rest line

/-- Loop-extraction block of the per-line loop (source lines 407-417). -/
def loopBlock (ext : String) (line_num : Nat) (line : String) (st : RegexSt) : RegexSt :=
  match lookupTab LOOP_PATTERNS ext with
  | none => st
  | some pats =>
    match firstLoopHit pats line with
    | none => st
    | some t =>
        { st with struct := { st.struct with loops := st.struct.loops ++ [⟨t, line_num⟩] } }

def firstVarHit : List Regex → String → Option String
  | [], _ => none
  | r :: rest, line =>
      match reSearchAnchored r line with
      | some m => some (capStr m.caps 1)
      | none => firstVarHit rest line

def varStopList : List String := ["if", "for", "while", "class", "def", "function"]

/-- Variable-extraction block of the per-line loop (source lines 420-438). -/
def varBlock (ext : String) (line_num : Nat) (line : String) (st : RegexSt) : RegexSt :=
  match lookupTab VARIABLE_PATTERNS ext with
  | none => st
  | some pats =>
    match firstVarHit pats line with
    | none => st
    | some var_name =>
      if var_name ≠ "" ∧ var_name ∉ varStopList then
        if st.in_class then
          match st.current_class with
          | some idx =>
              { st with struct := { st.struct with classes :=
                  (updateAt st.struct.classes idx
                    (fun c => if var_name ∈ c.members then c
                      else { c with members := c.members ++ [var_name] })) } }
          | none =>
              if varWindowHit st.struct.vars var_name line_num 5 then st
              else { st with struct := { st.struct with vars :=
                  st.struct.vars ++ [⟨var_name, line_num⟩] } }
        else
          if varWindowHit st.struct.vars var_name line_num 5 then st
          else { st with struct := { st.struct with vars :=
              st.struct.vars ++ [⟨var_name, line_num⟩] } }
      else st

/-- Brace tracking of the per-line loop (source lines 441-445). -/
def braceBlock (line : String) (st : RegexSt) : RegexSt :=
  if st.in_class then
    let bc := st.brace_count + (countChar line '\x7b' : Int) - (countChar line '\x7d' : Int)
    if bc ≤ 0 then { st with brace_count := bc, in_class := false, current_class := none }
    else { st with brace_count := bc }
  else st

/-- One iteration of the per-line loop of `analyze_file_with_regex`:
class, function, loop and variable extraction in order, then brace tracking. -/
def processLine (ext : String) (line_num : Nat) (line : String) (st : RegexSt) : RegexSt :=
  braceBlock line
    (varBlock ext line_num line
      (loopBlock ext line_num line
        (funcBlock ext line_num line
          (classBlock ext line_num line st))))

def runLines (ext : String) : RegexSt → Nat → List String → RegexSt
  | st, _, [] => st
  | st, n, l :: rest => runLines ext (processLine ext n l st) (n + 1) rest

def initRegexSt (fp : String) : RegexSt := ⟨CodeStructure.empty fp, none, false, 0⟩

/-- The per-line loop of `analyze_file_with_regex` run over
`content.split('\n')` with `enumerate(lines, 1)`, returning the final loop
state (structure plus scope-tracking variables). -/
def heuristicRun (file_path content : String) : RegexSt :=
  runLines (splitextExt file_path) (initRegexSt file_path) 1 (splitOnChar '\n' content)

/-- `analyze_file_with_regex(file_path, content)`: an empty structure when the
extension is in neither pattern table, otherwise the line scan's structure. -/
def analyze_file_with_regex (file_path content : String) : CodeStructure :=
  let ext := splitextExt file_path
  if (lookupTab CLASS_PATTERNS ext).isNone && (lookupTab FUNCTION_PATTERNS ext).isNone then
    CodeStructure.empty file_path
  else (heuristicRun file_path content).struct

/-! ## The precise extractor: `NodeVisitor` over the Python AST

The AST is embedded with the node kinds and fields the visitor inspects
(`ast.arg` parameter nodes, annotations, default expressions, `orelse`
branches, keywords and decorator lists carry no visitor behaviour and are not
modelled).  `ast.NodeVisitor.visit` dispatches to the `visit_X` methods below
and `generic_visit` folds the visit over the child nodes in field order.
Recursion is paced by a fuel argument (one unit per nesting level, so any fuel
at least the tree depth gives the visitor's behaviour); the invariants proved
below hold for every fuel value. -/

inductive PyCtx where
  | load
  | store
  | del
deriving DecidableEq, Repr

inductive PyExpr where
  | name (id : String) (ctx : PyCtx) (lineno : Nat)
  | attribute (value : PyExpr) (attr : String) (ctx : PyCtx) (lineno : Nat)
  | constant (text : String) (lineno : Nat)
  | call (func : PyExpr) (args : List PyExpr) (lineno : Nat)
deriving Repr

inductive PyStmt where
  | classDef (name : String) (bases : List PyExpr) (body : List PyStmt) (lineno : Nat)
  | functionDef (name : String) (args : List String) (body : List PyStmt) (lineno : Nat)
  | asyncFunctionDef (name : String) (args : List String) (body : List PyStmt) (lineno : Nat)
  | pyImport (names : List String) (lineno : Nat)
  | pyImportFrom (module : Option String) (lineno : Nat)
  | forStmt (target : PyExpr) (iter : PyExpr) (body : List PyStmt) (lineno : Nat)
  | asyncForStmt (target : PyExpr) (iter : PyExpr) (body : List PyStmt) (lineno : Nat)
  | whileStmt (test : PyExpr) (body : List PyStmt) (lineno : Nat)
  | assign (targets : List PyExpr) (value : PyExpr) (lineno : Nat)
  | annAssign (target : PyExpr) (value : Option PyExpr) (lineno : Nat)
  | exprStmt (value : PyExpr) (lineno : Nat)
  | passStmt (lineno : Nat)
  | returnStmt (value : Option PyExpr) (lineno : Nat)
deriving Repr

mutual

/-- `ast.unparse` restricted to the embedded expression forms (the best-effort
fallback for non-Name base-class expressions). -/
def unparseExpr : PyExpr → String
  | .name id _ _ => id
  | .attribute v a _ _ => unparseExpr v ++ "." ++ a
  | .constant t _ => t
  | .call f args _ => unparseExpr f ++ "(" ++ unparseArgs args ++ ")"

def unparseArgs : List PyExpr → String
  | [] => ""
  | [e] => unparseExpr e
  | e :: rest => unparseExpr e ++ ", " ++ unparseArgs rest

end

/-- Base-class rendering of `visit_ClassDef`: a plain `ast.Name` yields its id,
anything else its `ast.unparse` text. -/
def baseToStr : PyExpr → String
  | .name id _ _ => id
  | e => unparseExpr e

def memberAddIfAbsent (members : List String) (x : String) : List String :=
  if x ∈ members then members else members ++ [x]

/-- Member discovery for one assignment target at class-body level: a bare
name target or a `self`-qualified attribute target adds the member once. -/
def assignTargetMembers (members : List String) : PyExpr → List String
  | .name id _ _ => memberAddIfAbsent members id
  | .attribute (.name v _ _) attr _ _ =>
      if v = "self" then memberAddIfAbsent members attr else members
  | _ => members

/-- The direct class-body scan of `visit_ClassDef` collecting `methods` and
`members` from the statements immediately in the class body. -/
def classBodyScanAux (acc : List String × List String) :
    List PyStmt → List String × List String
  | [] => acc
  | item :: rest =>
      classBodyScanAux
        (match item with
          | .functionDef n _ _ _ => (acc.1 ++ [n], acc.2)
          | .asyncFunctionDef n _ _ _ => (acc.1 ++ [n], acc.2)
          | .assign targets _ _ => (acc.1, targets.foldl assignTargetMembers acc.2)
          | .annAssign target _ _ => (acc.1, assignTargetMembers acc.2 target)
          | _ => acc) rest

/-- `loc` of a class record: body statements that are neither `ast.Expr` nor
`ast.Pass`. -/
def classLoc (body : List PyStmt) : Nat :=
  (body.filter (fun s => match s with
    | .exprStmt _ _ => false
    | .passStmt _ => false
    | _ => true)).length

/-- The mutable fields of the `NodeVisitor` instance. -/
structure VisitorState where
  struct : CodeStructure
  current_class : Option String
  class_stack : List String
  current_function : Option String
  function_stack : List String
  class_members_cache : List (String × List String)
deriving Repr

def initVisitorState (fp : String) : VisitorState :=
  ⟨CodeStructure.empty fp, none, [], none, [], []⟩

def cacheSet : List (String × List String) → String → List String →
    List (String × List String)
  | [], k, v => [(k, v)]
  | (k', v') :: rest, k, v =>
      if k' = k then (k, v) :: rest else (k', v') :: cacheSet rest k v

def cacheGet (m : List (String × List String)) (k : String) : List String :=
  (lookupTab m k).getD []

def fvuGet (m : List (String × List UsageRec)) (k : String) : List UsageRec :=
  (lookupTab m k).getD []

/-- Appending one usage record under a function key of the
`function_variable_usage` defaultdict. -/
def fvuAppend : List (String × List UsageRec) → String → UsageRec →
    List (String × List UsageRec)
  | [], k, u => [(k, [u])]
  | (k', us) :: rest, k, u =>
      if k' = k then (k', us ++ [u]) :: rest else (k', us) :: fvuAppend rest k u

/-- The skip set of `visit_Name`. -/
def pySkipNames : List String :=
  ["self", "cls", "True", "False", "None", "print", "len", "str", "int",
   "list", "dict", "set", "tuple"]

def pyCtxLoadStore : PyCtx → Bool
  | .load => true
  | .store => true
  | .del => false

/-- The state update of `visit_Name` (source lines 265-299), without the
trailing `generic_visit` (a Name node has no children). -/
def visit_Name_upd (st : VisitorState) (id : String) (ctx : PyCtx) (ln : Nat) :
    VisitorState :=
  match st.current_function with
  | none => st
  | some fn =>
    if pyCtxLoadStore ctx then
      if id ∈ pySkipNames then st
      else
        let typ :=
          match st.current_class with
          | none => "local"
          | some cls =>
            if id ∈ cacheGet st.class_members_cache cls then "member"
            else if st.struct.vars.any (fun v => v.name == id) then "global"
            else "local"
        if (fvuGet st.struct.function_variable_usage fn).any
            (fun u => u.var == id && u.line == ln) then st
        else { st with struct := { st.struct with function_variable_usage :=
            (fvuAppend st.struct.function_variable_usage fn ⟨id, ln, typ⟩) } }
    else st

/-- The state update of `visit_Attribute` (source lines 301-320), without the
trailing `generic_visit`. -/
def visit_Attribute_upd (st : VisitorState) (value : PyExpr) (attr : String)
    (ctx : PyCtx) (ln : Nat) : VisitorState :=
  match st.current_function with
  | none => st
  | some fn =>
    if pyCtxLoadStore ctx then
      match value with
      | .name id _ _ =>
        if id = "self" then
          if (fvuGet st.struct.function_variable_usage fn).any
              (fun u => u.var == attr && u.line == ln) then st
          else { st with struct := { st.struct with function_variable_usage :=
              (fvuAppend st.struct.function_variable_usage fn ⟨attr, ln, "member"⟩) } }
        else st
      | _ => st
    else st

/-- The guarded module-level variable append of `visit_Assign`/`visit_AnnAssign`
(10-line dedup window). -/
def pushVar10 (st : VisitorState) (name : String) (ln : Nat) : VisitorState :=
  if varWindowHit st.struct.vars name ln 10 then st
  else { st with struct := { st.struct with vars := st.struct.vars ++ [⟨name, ln⟩] } }

/-- `visit` on an expression node: `visit_Name`/`visit_Attribute` followed by
`generic_visit` over the child expressions; other expression kinds have no
visitor and only their children are visited. -/
def visitExpr : Nat → VisitorState → PyExpr → VisitorState
  | 0, st, _ => st
  | fuel + 1, st, e =>
    match e with
    | .name id ctx ln => visit_Name_upd st id ctx ln
    | .attribute value attr ctx ln =>
        visitExpr fuel (visit_Attribute_upd st value attr ctx ln) value
    | .constant _ _ => st
    | .call f args _ => args.foldl (visitExpr fuel) (visitExpr fuel st f)

def visitOptExpr (fuel : Nat) (st : VisitorState) : Option PyExpr → VisitorState
  | none => st
  | some e => visitExpr fuel st e

/-- `visit` on a statement node, dispatching to the `visit_X` methods of
`NodeVisitor` with `generic_visit` folding over children in field order. -/
def visitStmt : Nat → VisitorState → PyStmt → VisitorState
  | 0, st, _ => st
  | fuel + 1, st, node =>
    match node with
    | .classDef name bases body ln =>
        let scan := classBodyScanAux ([], []) body
        let st1 := { st with current_class := some name,
                             class_stack := st.class_stack ++ [name] }
        let st2 := { st1 with struct := { st1.struct with classes :=
            (st1.struct.classes ++
              [(⟨name, ln, scan.1, scan.2, bases.map baseToStr, classLoc body⟩ : ClassRec)]) } }
        let st3 := { st2 with class_members_cache :=
            (cacheSet st2.class_members_cache name scan.2) }
        let st4 := body.foldl (visitStmt fuel) (bases.foldl (visitExpr fuel) st3)
        { st4 with current_class := st.current_class,
                   class_stack := if st4.class_stack.isEmpty then st4.class_stack
                                  else st4.class_stack.dropLast }
    | .functionDef name args body ln =>
        let full := match st.current_class with
          | some c => c ++ "." ++ name
          | none => name
        let st1 := match st.current_class with
          | none => { st with struct := { st.struct with functions :=
              (st.struct.functions ++ [(⟨name, ln, args, false⟩ : FuncRec)]) } }
          | some _ => st
        let st2 := { st1 with current_function := some full,
                              function_stack := st1.function_stack ++ [full] }
        let st3 := body.foldl (visitStmt fuel) st2
        { st3 with current_function := st.current_function,
                   function_stack := if st3.function_stack.isEmpty then st3.function_stack
                                     else st3.function_stack.dropLast }
    | .asyncFunctionDef name args body ln =>
        let full := match st.current_class with
          | some c => c ++ "." ++ name
          | none => name
        let st1 := match st.current_class with
          | none => { st with struct := { st.struct with functions :=
              (st.struct.functions ++ [(⟨name, ln, args, true⟩ : FuncRec)]) } }
          | some _ => st
        let st2 := { st1 with current_function := some full,
                              function_stack := st1.function_stack ++ [full] }
        let st3 := body.foldl (visitStmt fuel) st2
        { st3 with current_function := st.current_function,
                   function_stack := if st3.function_stack.isEmpty then st3.function_stack
                                     else st3.function_stack.dropLast }
    | .pyImport names _ =>
        { st with struct := { st.struct with imports := st.struct.imports ++ names } }
    | .pyImportFrom module _ =>
        match module with
        | some m =>
            { st with struct := { st.struct with imports := st.struct.imports ++ [m] } }
        | none => st
    | .forStmt target iter body ln =>
        let st1 := { st with struct := { st.struct with loops :=
            st.struct.loops ++ [⟨"for", ln⟩] } }
        body.foldl (visitStmt fuel) (visitExpr fuel (visitExpr fuel st1 target) iter)
    | .asyncForStmt target iter body ln =>
        let st1 := { st with struct := { st.struct with loops :=
            st.struct.loops ++ [⟨"async_for", ln⟩] } }
        body.foldl (visitStmt fuel) (visitExpr fuel (visitExpr fuel st1 target) iter)
    | .whileStmt test body ln =>
        let st1 := { st with struct := { st.struct with loops :=
            st.struct.loops ++ [⟨"while", ln⟩] } }
        body.foldl (visitStmt fuel) (visitExpr fuel st1 test)
    | .assign targets value ln =>
        let st1 := match st.current_class with
          | none => targets.foldl (fun s t => match t with
              | .name id _ _ => pushVar10 s id ln
              | _ => s) st
          | some _ => st
        visitExpr fuel (targets.foldl (visitExpr fuel) st1) value
    | .annAssign target value ln =>
        let st1 := match st.current_class, target with
          | none, .name id _ _ => pushVar10 st id ln
          | _, _ => st
        visitOptExpr fuel (visitExpr fuel st1 target) value
    | .exprStmt value _ => visitExpr fuel st value
    | .passStmt _ => st
    | .returnStmt value _ => visitOptExpr fuel st value

mutual

def exprSize : PyExpr → Nat
  | .name _ _ _ => 1
  | .attribute v _ _ _ => 1 + exprSize v
  | .constant _ _ => 1
  | .call f args _ => 1 + exprSize f + exprListSize args

def exprListSize : List PyExpr → Nat
  | [] => 1
  | e :: rest => 1 + exprSize e + exprListSize rest

end

def optExprSize : Option PyExpr → Nat
  | none => 1
  | some e => 1 + exprSize e

mutual

def stmtSize : PyStmt → Nat
  | .classDef _ bases body _ => 1 + exprListSize bases + stmtListSize body
  | .functionDef _ _ body _ => 1 + stmtListSize body
  | .asyncFunctionDef _ _ body _ => 1 + stmtListSize body
  | .pyImport _ _ => 1
  | .pyImportFrom _ _ => 1
  | .forStmt target iter body _ => 1 + exprSize target + exprSize iter + stmtListSize body
  | .asyncForStmt target iter body _ => 1 + exprSize target + exprSize iter + stmtListSize body
  | .whileStmt test body _ => 1 + exprSize test + stmtListSize body
  | .assign targets value _ => 1 + exprListSize targets + exprSize value
  | .annAssign target value _ => 1 + exprSize target + optExprSize value
  | .exprStmt value _ => 1 + exprSize value
  | .passStmt _ => 1
  | .returnStmt value _ => 1 + optExprSize value

def stmtListSize : List PyStmt → Nat
  | [] => 1
  | s :: rest => 1 + stmtSize s + stmtListSize rest

end

/-- Visiting a parsed module: `generic_visit` over the top-level statements. -/
def runNodeVisitor (fuel : Nat) (file_path : String) (tree : List PyStmt) :
    CodeStructure :=
  (tree.foldl (visitStmt fuel) (initVisitorState file_path)).struct

/-- `analyze_python_file(file_path, content)`: `parsed` is the outcome of
`ast.parse(content)` (`none` on `SyntaxError`/`ValueError`); on success the
visitor walks the tree, on failure the heuristic extractor is the fallback. -/
def analyze_python_file (file_path content : String) (parsed : Option (List PyStmt)) :
    CodeStructure :=
  match parsed with
  | some tree => runNodeVisitor (stmtListSize tree) file_path tree
  | none => analyze_file_with_regex file_path content


/-! ## The usage tracker: `track_class_usage` -/

/-- One step of the class-name → defining-files index construction. -/
def ctfAdd : List (String × List String) → String → String → List (String × List String)
  | [], k, f => [(k, [f])]
  | (k', fs) :: rest, k, f =>
      if k' = k then (k', fs ++ [f]) :: rest else (k', fs) :: ctfAdd rest k f

/-- `class_to_files`: for every structure, every class record appends the
file to the entry of its class name. -/
def buildClassToFiles (bp : List (String × CodeStructure)) : List (String × List String) :=
  bp.foldl (fun m p => p.2.classes.foldl (fun m c => ctfAdd m c.name p.1) m) []

/-- `structure.class_usage[class_name].extend(defining_files)` on the
defaultdict model. -/
def cuExtend : List (String × List String) → String → List String →
    List (String × List String)
  | [], k, fs => [(k, fs)]
  | (k', fs') :: rest, k, fs =>
      if k' = k then (k', fs' ++ fs) :: rest else (k', fs') :: cuExtend rest k fs

/-- `track_class_usage(blueprint_data, repo_path)` (source lines 450-490).
`readFile` stands for the filesystem read of the referencing file (`none`
models a read failure: the file is skipped by `continue`); `classRefHit
class_name content` stands for the outcome of testing the seven
reference-shape regexes built from `class_name` against `content`
case-insensitively (the first matching pattern breaks the loop, so only
whether any matched is observable). -/
def track_class_usage (classRefHit : String → String → Bool)
    (readFile : String → Option String)
    (blueprint : List (String × CodeStructure)) : List (String × CodeStructure) :=
  let class_to_files := buildClassToFiles blueprint
  blueprint.map (fun p =>
    match readFile p.1 with
    | none => p
    | some content =>
      (p.1, class_to_files.foldl (fun st q =>
        if p.1 ∈ q.2 then st
        else if classRefHit q.1 content then
          { st with class_usage := cuExtend st.class_usage q.1 q.2 }
        else st) p.2))

/-! ## The dependency analyzer: `analyze_dependencies` -/

/-- `DEPENDENCY_PATTERNS` of dependency_analyzer.py: the raw pattern strings,
passed unchanged to the external `re.findall` (the `findall` parameter). -/
def DEPENDENCY_PATTERNS : List (String × String) := [
  (".py", "(?:from|import)\\s+([\\w\\.]+)"),
  (".js", "(?:require|import)\\s+[\\\x27\"]?([.\\/a-zA-Z0-9_-]+)[\\\x27\"]?"),
  (".ts", "(?:import|export)\\s+[\\\x27\"]?([.\\/a-zA-Z0-9_-]+)[\\\x27\"]?"),
  (".java", "import\\s+([\\w\\.]+);"),
  (".c", "#include\\s+[\"<]([\\w\\/\\.]+)[\">]"),
  (".cpp", "#include\\s+[\"<]([\\w\\/\\.]+)[\">]"),
  (".html", "(?:<script\\s+src|href)\\s*=\\s*[\"\\\x27]([^\"\\\x27]+)[\"\\\x27]"),
  (".dart", "import\\s+[\\\x27\"]?([^\\\x27\"]+)[\\\x27\"]?"),
  (".rs", "(?:use|mod|extern\\s+crate)\\s+([\\w:\\.]+)"),
  (".go", "import\\s+(?:[\\w]+\\s+)?[\"\\\x27]([^\"\\\x27]+)[\"\\\x27]"),
  (".cs", "using\\s+([\\w\\.]+);"),
  (".php", "(?:(?:require|require_once|include|include_once)\\s+[\\\x27\"]?([^\\\x27\"\\s;]+)[\\\x27\"]?|use\\s+([\\\\\\w]+))"),
  (".sh", "(?:\\.|source)\\s+([^\\s#]+)"),
  (".bash", "(?:\\.|source)\\s+([^\\s#]+)"),
  (".kt", "import\\s+([\\w\\.]+)")]

/-- One file's metadata record of `all_file_data`: its path, its content as
the filesystem delivers it (`none` models an unreadable file), and the
`fan_out`/`fan_in` keys (`none` when the key is absent from the dict). -/
structure DepEntry where
  path : String
  content : Option String
  fan_out : Option Nat
  fan_in : Option Nat
deriving DecidableEq, Repr

/-- A Python `set(...)` of strings.  The analyzer only observes membership
and cardinality of its sets, so any duplicate-free enumeration is a faithful
model. -/
def pySet : List String → List String
  | [] => []
  | x :: rest =>
      let d := pySet rest
      if x ∈ d then d else x :: d

/-- Resolution of one raw dependency token (source lines 56-61): the first
path in iteration order that contains the token or its basename as a
substring and is not the source file itself. -/
def dep_resolve (paths : List String) (src dep : String) : Option String :=
  paths.find? (fun target =>
    (strContains target dep || strContains target (basenameStr dep)) && target != src)

/-- The distinct resolved target set of one source file,
`set(fan_out_map[path])`.  `found_dependencies` is a Python set, so the raw
`findall` result is deduplicated; the resolved targets are deduplicated
again, and only membership and count of the result are ever used. -/
def entry_target_set (findall : String → String → List String)
    (paths : List String) (e : DepEntry) : List String :=
  match lookupTab DEPENDENCY_PATTERNS (splitextExt e.path), e.content with
  | some pat, some content =>
      pySet ((pySet (findall pat content)).filterMap (dep_resolve paths e.path))
  | _, _ => []

/-- `fan_in_map[target] = fan_in_map.get(target, 0) + 1`. -/
def bumpNat : List (String × Nat) → String → List (String × Nat)
  | [], k => [(k, 1)]
  | (k', n) :: rest, k => if k' = k then (k', n + 1) :: rest else (k', n) :: bumpNat rest k

def lookupNat (m : List (String × Nat)) (k : String) : Nat := (lookupTab m k).getD 0

/-- `analyze_dependencies(repo_path, all_file_data)`: pass 1 writes `fan_out`
(the count of distinct resolved targets) onto each file whose extension has a
dependency pattern and whose content is readable — a `continue` skips the
write for every other file; pass 2 increments `fan_in_map[target]` once per
(source, distinct target) pair and writes `fan_in` onto every record. -/
def analyze_dependencies (findall : String → String → List String)
    (files : List DepEntry) : List DepEntry :=
  let paths := files.map DepEntry.path
  let files1 := files.map (fun e =>
    match lookupTab DEPENDENCY_PATTERNS (splitextExt e.path), e.content with
    | some _, some _ =>
        { e with fan_out := some (entry_target_set findall paths e).length }
    | _, _ => e)
  let fan_in_map := files.foldl
    (fun m e => (entry_target_set findall paths e).foldl bumpNat m)
    (paths.map (fun p => (p, 0)))
  files1.map (fun e => { e with fan_in := some (lookupNat fan_in_map e.path) })

/-! ## The aggregation statistics of `analyze_codebase_blueprint` -/

/-- `class_reuse_count[class_name] += len(using_files)` on the
`defaultdict(int)` model (keys in first-encounter order). -/
def bumpCount : List (String × Nat) → String → Nat → List (String × Nat)
  | [], k, n => [(k, n)]
  | (k', c) :: rest, k, n =>
      if k' = k then (k', c + n) :: rest else (k', c) :: bumpCount rest k n

/-- `class_reuse_count` (source lines 554-557): for every structure, every
`class_usage` item adds the length of its usage list under its class name. -/
def class_reuse_count (bps : List CodeStructure) : List (String × Nat) :=
  bps.foldl (fun m st => st.class_usage.foldl (fun m q => bumpCount m q.1 q.2.length) m) []

def insertDesc (x : String × Nat) : List (String × Nat) → List (String × Nat)
  | [] => [x]
  | y :: ys => if x.2 ≤ y.2 then y :: insertDesc x ys else x :: y :: ys

/-- Python's `sorted(items, key=lambda x: x[1], reverse=True)`.  Python's sort
is stable and a stable sort is uniquely determined by the key order, so stable
insertion sort is a faithful model; sortedness and stability are proved in
`c9_most_reused_classes`. -/
def sortByCountDesc (l : List (String × Nat)) : List (String × Nat) :=
  l.foldl (fun acc x => insertDesc x acc) []

/-- `most_reused_classes` of `_blueprint_stats` (source line 565): the sorted
reuse counts truncated to ten entries. -/
def most_reused_classes (bps : List CodeStructure) : List (String × Nat) :=
  (sortByCountDesc (class_reuse_count bps)).take 10


/-! ## Scenario inputs -/

/-- The scenario-1 program
`class A:` / `  def __init__(self):` / `    self.x = 1` / `  def get(self):` /
`    return self.x` as `ast.parse` delivers it (linenos are 1-based). -/
def scenario1Prog : List PyStmt := [
  .classDef "A" [] [
    .functionDef "__init__" ["self"] [
      .assign [.attribute (.name "self" .load 3) "x" .store 3] (.constant "1" 3) 3] 2,
    .functionDef "get" ["self"] [
      .returnStmt (some (.attribute (.name "self" .load 5) "x" .load 5)) 5] 4] 1]

def scenario1Content : String :=
  "class A:\n  def __init__(self):\n    self.x = 1\n  def get(self):\n    return self.x"

/-- The scenario-2 heuristic-mode input `class Foo extends Bar {` /
`  int count;` / `}`. -/
def scenario2Content : String := "class Foo extends Bar \x7b\n  int count;\n\x7d"

/-! ## Claim theorems -/

/-- C1, counterexample: on the scenario-1 program the extractor does NOT
produce a class record with `members = ["x"]` — `visit_ClassDef` collects
members only from assignments directly at class-body level, and `self.x = 1`
sits inside `__init__`'s body, so `members = []`. -/
theorem c1_scenario1_counterexample :
    ¬ ((analyze_python_file "demo.py" scenario1Content (some scenario1Prog)).classes.map
        ClassRec.members = [["x"]]) := by decide

/-- C1, amended: the scenario-1 program yields exactly one class record named
`A` with `members = []`, `methods = ["__init__", "get"]`, and
`function_variable_usage["A.get"]` holds exactly the entry
`{var: x, line: 5, type: member}`. -/
theorem c1_scenario1_amended :
    (analyze_python_file "demo.py" scenario1Content (some scenario1Prog)).classes =
      [⟨"A", 1, ["__init__", "get"], [], [], 2⟩] ∧
    lookupTab (analyze_python_file "demo.py" scenario1Content
        (some scenario1Prog)).function_variable_usage "A.get" =
      some [⟨"x", 5, "member"⟩] := by decide

/-- C2, counterexample: on the scenario-2 input the extractor yields the class
`Foo` with an EMPTY inheritance list (the `extends Bar` clause is not
parenthesized, and only a parenthesized clause is extracted), and the class
scope is NOT closed after line 3: the declaration line's brace is counted once
at the match and again by the end-of-line brace tracking, so the depth after
the closing brace is 1, not 0. -/
theorem c2_scenario2_counterexample :
    ¬ (((heuristicRun "Foo.java" scenario2Content).struct.classes.map
          ClassRec.inheritance = [["Bar"]]) ∧
       (heuristicRun "Foo.java" scenario2Content).in_class = false) := by decide

/-- C2, amended: the scenario-2 input yields exactly one class record named
`Foo` with `inheritance = []`, and after line 3 the class scope is still open
with brace depth 1 (the opening line's brace was double-counted). -/
theorem c2_scenario2_amended :
    (heuristicRun "Foo.java" scenario2Content).struct.classes =
      [⟨"Foo", 1, [], ["count"], [], 0⟩] ∧
    (heuristicRun "Foo.java" scenario2Content).in_class = true ∧
    (heuristicRun "Foo.java" scenario2Content).brace_count = 1 := by decide

/-- C3: the structural extractor always returns exactly one `CodeStructure`:
a failed precise-mode parse (`parsed = none`) is re-analyzed by the heuristic
extractor instead of propagating the error, and an extension present in
neither pattern table yields the empty structure without scanning any line. -/
theorem c3_extractor_total (file_path content : String) :
    analyze_python_file file_path content none =
      analyze_file_with_regex file_path content ∧
    ((lookupTab CLASS_PATTERNS (splitextExt file_path)).isNone = true →
     (lookupTab FUNCTION_PATTERNS (splitextExt file_path)).isNone = true →
     analyze_file_with_regex file_path content = CodeStructure.empty file_path) := by
  refine ⟨rfl, fun h1 h2 => ?_⟩
  unfold analyze_file_with_regex
  simp [h1, h2]

/-- Witness for C3 at a concrete unknown-extension file. -/
theorem c3_extractor_total_witness :
    (lookupTab CLASS_PATTERNS (splitextExt "notes.txt")).isNone = true ∧
    (lookupTab FUNCTION_PATTERNS (splitextExt "notes.txt")).isNone = true ∧
    analyze_python_file "notes.txt" "class Foo:" none =
      CodeStructure.empty "notes.txt" := by
  refine ⟨by decide, by decide, ?_⟩
  have h := c3_extractor_total "notes.txt" "class Foo:"
  rw [h.1]
  exact h.2 (by decide) (by decide)

/-- C6, counterexample: a file whose extension has no dependency-pattern entry
does NOT get `fan_out = 0` — the `continue` skips the write entirely, so the
record has no `fan_out` key at all after the analyzer runs. -/
theorem c6_counterexample :
    ¬ ((analyze_dependencies (fun _ _ => []) [⟨"a.txt", some "", none, none⟩]).map
        DepEntry.fan_out = [some 0]) := by decide


/-! ## Dependency-analyzer lemmas -/

theorem mem_pySet {x : String} : ∀ {l : List String}, x ∈ pySet l ↔ x ∈ l
  | [] => Iff.rfl
  | y :: rest => by
      unfold pySet
      by_cases h : y ∈ pySet rest
      · simp only [if_pos h]
        constructor
        · intro hx
          exact List.mem_cons_of_mem y (mem_pySet.mp hx)
        · intro hx
          rcases List.mem_cons.mp hx with h1 | h1
          · rw [h1]; exact mem_pySet.mpr (mem_pySet.mp h)
          · exact mem_pySet.mpr h1
      · simp only [if_neg h, List.mem_cons]
        constructor
        · intro hx
          rcases hx with h1 | h1
          · exact Or.inl h1
          · exact Or.inr (mem_pySet.mp h1)
        · intro hx
          rcases hx with h1 | h1
          · exact Or.inl h1
          · exact Or.inr (mem_pySet.mpr h1)

theorem nodup_pySet : ∀ (l : List String), (pySet l).Nodup
  | [] => List.nodup_nil
  | y :: rest => by
      unfold pySet
      by_cases h : y ∈ pySet rest
      · rw [if_pos h]; exact nodup_pySet rest
      · rw [if_neg h]; exact List.nodup_cons.mpr ⟨h, nodup_pySet rest⟩

theorem entry_target_set_nodup (findall : String → String → List String)
    (paths : List String) (e : DepEntry) :
    (entry_target_set findall paths e).Nodup := by
  unfold entry_target_set
  cases lookupTab DEPENDENCY_PATTERNS (splitextExt e.path) with
  | none => exact List.nodup_nil
  | some pat =>
    cases e.content with
    | none => exact List.nodup_nil
    | some content => exact nodup_pySet _

theorem lookupNat_bumpNat (k k' : String) :
    ∀ (m : List (String × Nat)),
      lookupNat (bumpNat m k) k' = lookupNat m k' + if k' = k then 1 else 0
  | [] => by
      by_cases h : k' = k
      · subst h; simp [bumpNat, lookupNat, lookupTab]
      · simp [bumpNat, lookupNat, lookupTab, h, Ne.symm h]
  | (k1, n) :: rest => by
      by_cases h1 : k1 = k
      · subst h1
        by_cases h2 : k' = k1
        · subst h2; simp [bumpNat, lookupNat, lookupTab]
        · simp [bumpNat, lookupNat, lookupTab, h2, Ne.symm h2]
      · by_cases h2 : k' = k1
        · subst h2
          have h1s : k ≠ k' := fun hh => h1 hh.symm
          simp [bumpNat, lookupNat, lookupTab, h1, h1s]
        · have ih := lookupNat_bumpNat k k' rest
          simp only [bumpNat, if_neg h1, lookupNat, lookupTab,
            if_neg (Ne.symm h2)]
          exact ih

theorem lookupNat_fold_bump (p : String) :
    ∀ (ts : List String), ts.Nodup → ∀ (m : List (String × Nat)),
      lookupNat (ts.foldl bumpNat m) p =
        lookupNat m p + (if p ∈ ts then 1 else 0)
  | [], _, m => by simp
  | t :: ts, hnd, m => by
      have hnd' := (List.nodup_cons.mp hnd).2
      have hni := (List.nodup_cons.mp hnd).1
      simp only [List.foldl_cons]
      rw [lookupNat_fold_bump p ts hnd' (bumpNat m t), lookupNat_bumpNat]
      by_cases h : p = t
      · subst h
        have hpts : p ∉ ts := hni
        simp [hpts]
      · simp only [List.mem_cons]
        have : (p = t ∨ p ∈ ts) ↔ p ∈ ts := by
          constructor
          · intro hh; rcases hh with hh | hh
            · exact absurd hh h
            · exact hh
          · exact Or.inr
        rw [if_neg h]
        by_cases hm : p ∈ ts
        · simp [hm, this]
        · simp [hm, this, h]

theorem lookupNat_files_fold (tset : DepEntry → List String)
    (hnd : ∀ e, (tset e).Nodup) (p : String) :
    ∀ (files : List DepEntry) (m : List (String × Nat)),
      lookupNat (files.foldl (fun m e => (tset e).foldl bumpNat m) m) p =
        lookupNat m p + (files.filter (fun s => decide (p ∈ tset s))).length
  | [], m => by simp
  | f :: files, m => by
      simp only [List.foldl_cons]
      rw [lookupNat_files_fold tset hnd p files ((tset f).foldl bumpNat m),
        lookupNat_fold_bump p (tset f) (hnd f) m]
      by_cases h : p ∈ tset f
      · simp [List.filter_cons, h]
        omega
      · simp [List.filter_cons, h]

theorem lookupNat_zeros (p : String) :
    ∀ (l : List String), lookupNat (l.map (fun q => (q, 0))) p = 0
  | [] => rfl
  | q :: rest => by
      by_cases h : q = p
      · simp [lookupNat, lookupTab, h]
      · simp only [List.map_cons, lookupNat, lookupTab, if_neg h]
        exact lookupNat_zeros p rest

theorem zip_map_self {α β : Type} (h : α → β) :
    ∀ (l : List α) (p : α × β), p ∈ l.zip (l.map h) → p.2 = h p.1
  | [], p, hp => absurd hp (List.not_mem_nil p)
  | x :: rest, p, hp => by
      simp only [List.map_cons, List.zip_cons_cons, List.mem_cons] at hp
      rcases hp with h1 | h1
      · rw [h1]
      · exact zip_map_self h rest p h1


/-- C6, amended: after `analyze_dependencies` every record carries an integer
`fan_in`; `fan_out` is written only onto records whose extension has a
dependency-pattern entry and whose content is readable (then it is the count
of distinct resolved targets) — a record with no pattern entry, or an
unreadable one, keeps whatever `fan_out` it had (no key is written). -/
theorem c6_fan_fields_amended (findall : String → String → List String)
    (files : List DepEntry) :
    ((analyze_dependencies findall files).length = files.length) ∧
    (∀ e ∈ analyze_dependencies findall files, e.fan_in.isSome = true) ∧
    (∀ p ∈ files.zip (analyze_dependencies findall files),
      ((lookupTab DEPENDENCY_PATTERNS (splitextExt p.1.path)).isNone = true →
        p.2.fan_out = p.1.fan_out) ∧
      (p.1.content.isNone = true → p.2.fan_out = p.1.fan_out) ∧
      ((lookupTab DEPENDENCY_PATTERNS (splitextExt p.1.path)).isSome = true →
        p.1.content.isSome = true →
        p.2.fan_out =
          some (entry_target_set findall (files.map DepEntry.path) p.1).length)) := by
  unfold analyze_dependencies
  simp only [List.map_map]
  refine ⟨by simp, ?_, ?_⟩
  · intro e he
    rcases List.mem_map.mp he with ⟨x, _, hx⟩
    rw [← hx]
    rfl
  · intro p hp
    have h2 := zip_map_self _ files p hp
    refine ⟨?_, ?_, ?_⟩
    · intro hnone
      rw [h2]
      simp only [Function.comp]
      cases hl : lookupTab DEPENDENCY_PATTERNS (splitextExt p.1.path) with
      | none => cases hc : p.1.content <;> simp [hl, hc]
      | some pat => rw [hl] at hnone; simp at hnone
    · intro hcnone
      rw [h2]
      simp only [Function.comp]
      cases hc : p.1.content with
      | none => cases hl : lookupTab DEPENDENCY_PATTERNS (splitextExt p.1.path) <;>
          simp [hl, hc]
      | some c => rw [hc] at hcnone; simp at hcnone
    · intro hlsome hcsome
      rw [h2]
      simp only [Function.comp]
      cases hl : lookupTab DEPENDENCY_PATTERNS (splitextExt p.1.path) with
      | none => rw [hl] at hlsome; simp at hlsome
      | some pat =>
        cases hc : p.1.content with
        | none => rw [hc] at hcsome; simp at hcsome
        | some c => simp [hl, hc]

/-- Witness for C6 at a concrete `.txt` file (no dependency-pattern entry). -/
theorem c6_fan_fields_amended_witness :
    (((⟨"a.txt", some "", none, none⟩, ⟨"a.txt", some "", none, some 0⟩) :
        DepEntry × DepEntry) ∈
      ([⟨"a.txt", some "", none, none⟩] : List DepEntry).zip
        (analyze_dependencies (fun _ _ => []) [⟨"a.txt", some "", none, none⟩])) ∧
    (lookupTab DEPENDENCY_PATTERNS (splitextExt "a.txt")).isNone = true ∧
    (⟨"a.txt", some "", none, some 0⟩ : DepEntry).fan_out =
      (⟨"a.txt", some "", none, none⟩ : DepEntry).fan_out := by
  refine ⟨by decide, by decide, ?_⟩
  exact (((c6_fan_fields_amended (fun _ _ => [])
    [⟨"a.txt", some "", none, none⟩]).2.2
      ((⟨"a.txt", some "", none, none⟩, ⟨"a.txt", some "", none, some 0⟩) :
        DepEntry × DepEntry)
      (by decide)).1 (by decide))

/-- C7: after the analyzer runs, every record's `fan_in` equals the number of
source files whose distinct resolved dependency target set contains it (the
`Nodup` hypothesis states that `all_file_data` is a dict: paths are unique). -/
theorem c7_fan_in_count (findall : String → String → List String)
    (files : List DepEntry) (hnd : (files.map DepEntry.path).Nodup) :
    ∀ e ∈ analyze_dependencies findall files,
      e.fan_in = some ((files.filter (fun s =>
        decide (e.path ∈ entry_target_set findall (files.map DepEntry.path) s))).length) := by
  intro e he
  unfold analyze_dependencies at he
  rcases List.mem_map.mp he with ⟨y, hy, hgy⟩
  rcases List.mem_map.mp hy with ⟨x, hxmem, hfx⟩
  have hypath : y.path = x.path := by
    rw [← hfx]
    cases lookupTab DEPENDENCY_PATTERNS (splitextExt x.path) <;>
      cases x.content <;> rfl
  have hpath : e.path = x.path := by
    rw [← hgy, hypath]
  have hfan : e.fan_in = some (lookupNat
      (files.foldl (fun m e =>
        (entry_target_set findall (files.map DepEntry.path) e).foldl bumpNat m)
        ((files.map DepEntry.path).map (fun p => (p, 0)))) x.path) := by
    rw [← hgy, hypath]
  rw [hfan, hpath,
    lookupNat_files_fold (entry_target_set findall (files.map DepEntry.path))
      (entry_target_set_nodup findall (files.map DepEntry.path)) x.path files _,
    lookupNat_zeros]
  simp

def c7findall : String → String → List String :=
  fun _ c => if c = "import b" then ["b"] else []

def c7files : List DepEntry :=
  [⟨"a.py", some "import b", none, none⟩, ⟨"b.py", none, none, none⟩]

/-- Witness for C7 on a two-file example where `a.py` imports `b`. -/
theorem c7_fan_in_count_witness :
    ((⟨"b.py", none, none, some 1⟩ : DepEntry) ∈
      analyze_dependencies c7findall c7files) ∧
    (⟨"b.py", none, none, some 1⟩ : DepEntry).fan_in =
      some ((c7files.filter (fun s => decide ((⟨"b.py", none, none, some 1⟩ :
        DepEntry).path ∈
          entry_target_set c7findall (c7files.map DepEntry.path) s))).length) := by
  refine ⟨by decide, ?_⟩
  exact c7_fan_in_count c7findall c7files (by decide) _ (by decide)


/-! ## Usage-tracker lemmas -/

/-- `class_to_files[k]` with the defaultdict default. -/
def ctfGet (m : List (String × List String)) (k : String) : List String :=
  (lookupTab m k).getD []

theorem ctfGet_ctfAdd (k k' f : String) :
    ∀ (m : List (String × List String)),
      ctfGet (ctfAdd m k f) k' =
        if k' = k then ctfGet m k' ++ [f] else ctfGet m k'
  | [] => by
      by_cases h : k' = k
      · subst h; simp [ctfAdd, ctfGet, lookupTab]
      · simp [ctfAdd, ctfGet, lookupTab, h, Ne.symm h]
  | (k1, v) :: rest => by
      by_cases h1 : k1 = k
      · subst h1
        by_cases h2 : k' = k1
        · subst h2; simp [ctfAdd, ctfGet, lookupTab]
        · simp [ctfAdd, ctfGet, lookupTab, h2, Ne.symm h2]
      · by_cases h2 : k' = k1
        · have hk'k : ¬ k' = k := by rw [h2]; exact h1
          simp only [ctfAdd, if_neg h1, ctfGet, lookupTab, if_pos h2.symm,
            if_neg hk'k, Option.getD_some]
        · have ih := ctfGet_ctfAdd k k' f rest
          simp only [ctfAdd, if_neg h1, ctfGet, lookupTab, if_neg (Ne.symm h2)]
          exact ih

theorem mem_keys_ctfAdd (k f x : String) :
    ∀ (m : List (String × List String)),
      x ∈ (ctfAdd m k f).map Prod.fst → x = k ∨ x ∈ m.map Prod.fst
  | [], hm => by
      simp [ctfAdd] at hm
      exact Or.inl hm
  | (k1, v) :: rest, hm => by
      by_cases h1 : k1 = k
      · subst h1
        have he : ctfAdd ((k1, v) :: rest) k1 f = (k1, v ++ [f]) :: rest := by
          simp [ctfAdd]
        rw [he, List.map_cons] at hm
        rcases List.mem_cons.mp hm with h | h
        · exact Or.inl h
        · exact Or.inr (by rw [List.map_cons]; exact List.mem_cons_of_mem _ h)
      · have he : ctfAdd ((k1, v) :: rest) k f = (k1, v) :: ctfAdd rest k f := by
          simp [ctfAdd, h1]
        rw [he, List.map_cons] at hm
        rcases List.mem_cons.mp hm with h | h
        · exact Or.inr (by rw [List.map_cons]; exact List.mem_cons.mpr (Or.inl h))
        · rcases mem_keys_ctfAdd k f x rest h with h2 | h2
          · exact Or.inl h2
          · exact Or.inr (by rw [List.map_cons]; exact List.mem_cons_of_mem _ h2)

theorem ctfAdd_keys_nodup (k f : String) :
    ∀ (m : List (String × List String)),
      (m.map Prod.fst).Nodup → ((ctfAdd m k f).map Prod.fst).Nodup
  | [], _ => by simp [ctfAdd]
  | (k1, v) :: rest, hnd => by
      rw [List.map_cons] at hnd
      have hnd1 : k1 ∉ rest.map Prod.fst := (List.nodup_cons.mp hnd).1
      have hnd2 : (rest.map Prod.fst).Nodup := (List.nodup_cons.mp hnd).2
      by_cases h1 : k1 = k
      · subst h1
        have he : ctfAdd ((k1, v) :: rest) k1 f = (k1, v ++ [f]) :: rest := by
          simp [ctfAdd]
        rw [he, List.map_cons]
        exact List.nodup_cons.mpr ⟨hnd1, hnd2⟩
      · have ih := ctfAdd_keys_nodup k f rest hnd2
        simp only [ctfAdd, if_neg h1, List.map_cons]
        refine List.nodup_cons.mpr ⟨?_, ih⟩
        intro hmem
        rcases mem_keys_ctfAdd k f k1 rest hmem with h | h
        · exact h1 h
        · exact hnd1 h

theorem lookupTab_of_mem_nodup {α : Type} (k : String) (v : α) :
    ∀ (m : List (String × α)), (k, v) ∈ m → (m.map Prod.fst).Nodup →
      lookupTab m k = some v
  | [], hm, _ => absurd hm (List.not_mem_nil _)
  | (k1, v1) :: rest, hm, hnd => by
      rw [List.map_cons] at hnd
      have hnd1 : k1 ∉ rest.map Prod.fst := (List.nodup_cons.mp hnd).1
      have hnd2 : (rest.map Prod.fst).Nodup := (List.nodup_cons.mp hnd).2
      rcases List.mem_cons.mp hm with h | h
      · have hk : k1 = k := by
          have := congrArg Prod.fst h
          exact this.symm
        have hv : v1 = v := by
          have := congrArg Prod.snd h
          exact this.symm
        subst hk
        subst hv
        simp [lookupTab]
      · by_cases hk : k1 = k
        · exfalso
          apply hnd1
          rw [hk]
          exact List.mem_map_of_mem Prod.fst h
        · simp only [lookupTab, if_neg hk]
          exact lookupTab_of_mem_nodup k v rest h hnd2

theorem inner_fold_keys_nodup (p : String) :
    ∀ (classes : List ClassRec) (m : List (String × List String)),
      (m.map Prod.fst).Nodup →
      (((classes.foldl (fun m c => ctfAdd m c.name p) m)).map Prod.fst).Nodup
  | [], m, h => h
  | c :: rest, m, h =>
      inner_fold_keys_nodup p rest (ctfAdd m c.name p) (ctfAdd_keys_nodup c.name p m h)

theorem build_fold_keys_nodup :
    ∀ (bp : List (String × CodeStructure)) (m : List (String × List String)),
      (m.map Prod.fst).Nodup →
      ((bp.foldl (fun m p => p.2.classes.foldl (fun m c => ctfAdd m c.name p.1) m) m).map
        Prod.fst).Nodup
  | [], _, h => h
  | x :: rest, m, h =>
      build_fold_keys_nodup rest _ (inner_fold_keys_nodup x.1 x.2.classes m h)

theorem buildClassToFiles_keys_nodup (bp : List (String × CodeStructure)) :
    ((buildClassToFiles bp).map Prod.fst).Nodup :=
  build_fold_keys_nodup bp [] (by simp)

theorem ctfGet_mono_add (k k' f x : String) (m : List (String × List String))
    (hx : x ∈ ctfGet m k') : x ∈ ctfGet (ctfAdd m k f) k' := by
  rw [ctfGet_ctfAdd]
  by_cases h : k' = k
  · rw [if_pos h]
    exact List.mem_append_left _ hx
  · rw [if_neg h]
    exact hx

theorem inner_fold_mono (p x k : String) :
    ∀ (classes : List ClassRec) (m : List (String × List String)),
      x ∈ ctfGet m k →
      x ∈ ctfGet (classes.foldl (fun m c => ctfAdd m c.name p) m) k
  | [], _, h => h
  | c :: rest, m, h =>
      inner_fold_mono p x k rest (ctfAdd m c.name p) (ctfGet_mono_add c.name k p x m h)

theorem inner_fold_adds (p : String) (c : ClassRec) :
    ∀ (classes : List ClassRec) (m : List (String × List String)),
      c ∈ classes →
      p ∈ ctfGet (classes.foldl (fun m c => ctfAdd m c.name p) m) c.name
  | [], _, hc => absurd hc (List.not_mem_nil _)
  | c1 :: rest, m, hc => by
      rcases List.mem_cons.mp hc with h | h
      · subst h
        apply inner_fold_mono p p c.name rest
        rw [ctfGet_ctfAdd, if_pos rfl]
        exact List.mem_append_right _ (List.mem_singleton.mpr rfl)
      · exact inner_fold_adds p c rest (ctfAdd m c1.name p) h

theorem outer_fold_mono (x k : String) :
    ∀ (bp : List (String × CodeStructure)) (m : List (String × List String)),
      x ∈ ctfGet m k →
      x ∈ ctfGet (bp.foldl
        (fun m p => p.2.classes.foldl (fun m c => ctfAdd m c.name p.1) m) m) k
  | [], _, h => h
  | y :: rest, m, h =>
      outer_fold_mono x k rest _ (inner_fold_mono y.1 x k y.2.classes m h)

theorem buildClassToFiles_mem (p : String) (stc : CodeStructure) (c : ClassRec) :
    ∀ (bp : List (String × CodeStructure)) (m : List (String × List String)),
      (p, stc) ∈ bp → c ∈ stc.classes →
      p ∈ ctfGet (bp.foldl
        (fun m p => p.2.classes.foldl (fun m c => ctfAdd m c.name p.1) m) m) c.name
  | [], _, hbp, _ => absurd hbp (List.not_mem_nil _)
  | y :: rest, m, hbp, hc => by
      rcases List.mem_cons.mp hbp with h | h
      · rw [← h]
        exact outer_fold_mono p c.name rest _ (inner_fold_adds p c stc.classes m hc)
      · exact buildClassToFiles_mem p stc c rest _ h hc

theorem lookupTab_cuExtend_ne (k k' : String) (fs : List String) (h : k' ≠ k) :
    ∀ (m : List (String × List String)),
      lookupTab (cuExtend m k fs) k' = lookupTab m k'
  | [] => by simp [cuExtend, lookupTab, Ne.symm h]
  | (k1, v) :: rest => by
      by_cases h1 : k1 = k
      · subst h1
        simp [cuExtend, lookupTab, Ne.symm h]
      · by_cases h2 : k1 = k'
        · simp [cuExtend, lookupTab, h1, h2, h]
        · simp only [cuExtend, if_neg h1, lookupTab, if_neg h2]
          exact lookupTab_cuExtend_ne k k' fs h rest

theorem track_fold_classes (hit : String → String → Bool) (content path : String) :
    ∀ (l : List (String × List String)) (st : CodeStructure),
      (l.foldl (fun st q =>
        if path ∈ q.2 then st
        else if hit q.1 content then
          { st with class_usage := cuExtend st.class_usage q.1 q.2 }
        else st) st).classes = st.classes
  | [], _ => rfl
  | q :: rest, st => by
      simp only [List.foldl_cons]
      rw [track_fold_classes hit content path rest]
      by_cases h1 : path ∈ q.2
      · rw [if_pos h1]
      · rw [if_neg h1]
        by_cases h2 : hit q.1 content
        · rw [if_pos h2]
        · rw [if_neg h2]

theorem track_fold_usage_empty (hit : String → String → Bool)
    (content path cname : String) :
    ∀ (l : List (String × List String)),
      (∀ q ∈ l, q.1 = cname → path ∈ q.2) →
      ∀ (st : CodeStructure), (lookupTab st.class_usage cname).getD [] = [] →
      (lookupTab (l.foldl (fun st q =>
        if path ∈ q.2 then st
        else if hit q.1 content then
          { st with class_usage := cuExtend st.class_usage q.1 q.2 }
        else st) st).class_usage cname).getD [] = []
  | [], _, st, hst => hst
  | q :: rest, hl, st, hst => by
      simp only [List.foldl_cons]
      apply track_fold_usage_empty hit content path cname rest
        (fun q' hq' => hl q' (List.mem_cons_of_mem q hq'))
      by_cases h1 : path ∈ q.2
      · rw [if_pos h1]; exact hst
      · rw [if_neg h1]
        by_cases h2 : hit q.1 content
        · rw [if_pos h2]
          have hq : q.1 ≠ cname := by
            intro hh
            exact h1 (hl q (List.mem_cons_self q rest) hh)
          show (lookupTab (cuExtend st.class_usage q.1 q.2) cname).getD [] = []
          rw [lookupTab_cuExtend_ne q.1 cname q.2 (Ne.symm hq)]
          exact hst
        · rw [if_neg h2]; exact hst

/-- C4: after the usage tracker runs over structures with freshly constructed
(empty) `class_usage`, no file that defines a class carries any entry for that
class in its own `class_usage` — the defining file is never recorded as a user
of its own class. -/
theorem c4_no_self_usage (classRefHit : String → String → Bool)
    (readFile : String → Option String)
    (blueprint : List (String × CodeStructure))
    (hinit : ∀ p ∈ blueprint, p.2.class_usage = []) :
    ∀ q ∈ track_class_usage classRefHit readFile blueprint,
      ∀ c ∈ q.2.classes,
        (lookupTab q.2.class_usage c.name).getD [] = [] := by
  intro q hq c hc
  unfold track_class_usage at hq
  rcases List.mem_map.mp hq with ⟨x, hx, hqx⟩
  have hxcu : x.2.class_usage = [] := hinit x hx
  cases hr : readFile x.1 with
  | none =>
      have hqx2 : q = x := by rw [← hqx, hr]
      subst hqx2
      rw [hxcu]
      rfl
  | some content =>
      have hqx2 : q = (x.1, (buildClassToFiles blueprint).foldl (fun st q =>
          if x.1 ∈ q.2 then st
          else if classRefHit q.1 content then
            { st with class_usage := cuExtend st.class_usage q.1 q.2 }
          else st) x.2) := by rw [← hqx, hr]
      subst hqx2
      simp only at hc
      rw [track_fold_classes] at hc
      simp only
      apply track_fold_usage_empty classRefHit content x.1 c.name
      · intro qq hqq hqq1
        have hmem : x.1 ∈ ctfGet (buildClassToFiles blueprint) c.name := by
          unfold buildClassToFiles
          exact buildClassToFiles_mem x.1 x.2 c blueprint [] hx hc
        have hnd := buildClassToFiles_keys_nodup blueprint
        have hlk : lookupTab (buildClassToFiles blueprint) qq.1 = some qq.2 :=
          lookupTab_of_mem_nodup qq.1 qq.2 (buildClassToFiles blueprint) hqq hnd
        rw [hqq1] at hlk
        unfold ctfGet at hmem
        rw [hlk] at hmem
        exact hmem
      · rw [hxcu]
        rfl

def c4blueprint : List (String × CodeStructure) :=
  [("w.py", ⟨"w.py", [⟨"W", 1, [], [], [], 0⟩], [], [], [], [], [], []⟩)]

/-- Witness for C4 on a one-file blueprint defining class `W`. -/
theorem c4_no_self_usage_witness :
    (∀ p ∈ c4blueprint, p.2.class_usage = []) ∧
    (("w.py", ⟨"w.py", [⟨"W", 1, [], [], [], 0⟩], [], [], [], [], [], []⟩) ∈
      track_class_usage (fun _ _ => true) (fun _ => some "W(") c4blueprint) ∧
    ((⟨"W", 1, [], [], [], 0⟩ : ClassRec) ∈
      ([⟨"W", 1, [], [], [], 0⟩] : List ClassRec)) ∧
    (lookupTab (⟨"w.py", [⟨"W", 1, [], [], [], 0⟩], [], [], [], [], [], []⟩ :
      CodeStructure).class_usage "W").getD [] = [] := by
  refine ⟨by decide, by decide, by decide, ?_⟩
  exact c4_no_self_usage (fun _ _ => true) (fun _ => some "W(") c4blueprint
    (by decide)
    ("w.py", ⟨"w.py", [⟨"W", 1, [], [], [], 0⟩], [], [], [], [], [], []⟩)
    (by decide) ⟨"W", 1, [], [], [], 0⟩ (by decide)


/-! ## Visitor invariants (precise extractor) -/

/-- No two same-named records closer than `window` lines (the deduplication
invariant of the `variables` list). -/
def VarsSeparated (window : Nat) (l : List VarRec) : Prop :=
  List.Pairwise (fun a b => a.name = b.name →
    window ≤ ((a.line : Int) - (b.line : Int)).natAbs) l

/-- Fields no expression visit ever changes. -/
def ExprPres (st st' : VisitorState) : Prop :=
  st'.current_class = st.current_class ∧
  st'.struct.functions = st.struct.functions ∧
  st'.struct.classes = st.struct.classes ∧
  st'.struct.vars = st.struct.vars

theorem exprPresRefl (st : VisitorState) : ExprPres st st := ⟨rfl, rfl, rfl, rfl⟩

theorem exprPresTrans {a b c : VisitorState} (h : ExprPres a b) (g : ExprPres b c) :
    ExprPres a c :=
  ⟨g.1.trans h.1, g.2.1.trans h.2.1, g.2.2.1.trans h.2.2.1, g.2.2.2.trans h.2.2.2⟩

theorem foldl_ExprPres {γ : Type} (f : VisitorState → γ → VisitorState)
    (hf : ∀ st x, ExprPres st (f st x)) :
    ∀ (l : List γ) (st : VisitorState), ExprPres st (l.foldl f st)
  | [], st => exprPresRefl st
  | x :: rest, st =>
      exprPresTrans (hf st x) (foldl_ExprPres f hf rest (f st x))

theorem visit_Name_upd_pres (st : VisitorState) (id : String) (ctx : PyCtx) (ln : Nat) :
    ExprPres st (visit_Name_upd st id ctx ln) := by
  unfold visit_Name_upd
  repeat' split
  all_goals exact ⟨rfl, rfl, rfl, rfl⟩

theorem visit_Attribute_upd_pres (st : VisitorState) (value : PyExpr) (attr : String)
    (ctx : PyCtx) (ln : Nat) : ExprPres st (visit_Attribute_upd st value attr ctx ln) := by
  unfold visit_Attribute_upd
  repeat' split
  all_goals exact ⟨rfl, rfl, rfl, rfl⟩

theorem visitExpr_pres : ∀ (fuel : Nat) (st : VisitorState) (e : PyExpr),
    ExprPres st (visitExpr fuel st e) := by
  intro fuel
  induction fuel with
  | zero => intro st e; exact exprPresRefl st
  | succ fuel ih =>
    intro st e
    match e with
    | .name id ctx ln => exact visit_Name_upd_pres st id ctx ln
    | .attribute value attr ctx ln =>
        exact exprPresTrans (visit_Attribute_upd_pres st value attr ctx ln)
          (ih _ value)
    | .constant t ln => exact exprPresRefl st
    | .call f args ln =>
        exact exprPresTrans (ih st f)
          (foldl_ExprPres (visitExpr fuel) ih args (visitExpr fuel st f))

theorem visitOptExpr_pres (fuel : Nat) (st : VisitorState) (e : Option PyExpr) :
    ExprPres st (visitOptExpr fuel st e) := by
  cases e with
  | none => exact exprPresRefl st
  | some e => exact visitExpr_pres fuel st e

/-- The statement-level invariant: `current_class` is restored, `classes` only
grows at the tail, `functions` is untouched whenever the visit starts inside a
class, and the 10-line separation of `variables` is preserved. -/
def StmtInv (st st' : VisitorState) : Prop :=
  st'.current_class = st.current_class ∧
  (∃ suffix, st'.struct.classes = st.struct.classes ++ suffix) ∧
  (st.current_class.isSome = true → st'.struct.functions = st.struct.functions) ∧
  (VarsSeparated 10 st.struct.vars → VarsSeparated 10 st'.struct.vars)

theorem stmtInvRefl (st : VisitorState) : StmtInv st st :=
  ⟨rfl, ⟨[], (List.append_nil _).symm⟩, fun _ => rfl, id⟩

theorem stmtInvTrans {a b c : VisitorState} (h : StmtInv a b) (g : StmtInv b c) :
    StmtInv a c := by
  obtain ⟨h1, ⟨s1, hs1⟩, h3, h4⟩ := h
  obtain ⟨g1, ⟨s2, hs2⟩, g3, g4⟩ := g
  refine ⟨g1.trans h1, ⟨s1 ++ s2, ?_⟩, ?_, fun hv => g4 (h4 hv)⟩
  · rw [hs2, hs1, List.append_assoc]
  · intro ha
    have hb : b.current_class.isSome = true := by rw [h1]; exact ha
    rw [g3 hb, h3 ha]

theorem ExprPres.toStmtInv {a b : VisitorState} (h : ExprPres a b) : StmtInv a b := by
  obtain ⟨h1, h2, h3, h4⟩ := h
  exact ⟨h1, ⟨[], by rw [h3, List.append_nil]⟩, fun _ => h2, fun hv => h4 ▸ hv⟩

theorem foldl_StmtInv {γ : Type} (f : VisitorState → γ → VisitorState)
    (hf : ∀ st x, StmtInv st (f st x)) :
    ∀ (l : List γ) (st : VisitorState), StmtInv st (l.foldl f st)
  | [], st => stmtInvRefl st
  | x :: rest, st =>
      stmtInvTrans (hf st x) (foldl_StmtInv f hf rest (f st x))

theorem pushVar10_inv (st : VisitorState) (name : String) (ln : Nat) :
    StmtInv st (pushVar10 st name ln) := by
  unfold pushVar10
  split
  · exact stmtInvRefl st
  · rename_i hguard
    refine ⟨rfl, ⟨[], (List.append_nil _).symm⟩, fun _ => rfl, fun hp => ?_⟩
    show VarsSeparated 10 (st.struct.vars ++ [⟨name, ln⟩])
    unfold VarsSeparated at hp ⊢
    rw [List.pairwise_append]
    refine ⟨hp, List.pairwise_singleton _ _, ?_⟩
    intro a ha b hb
    rw [List.mem_singleton] at hb
    subst hb
    show a.name = name → 10 ≤ ((a.line : Int) - (ln : Int)).natAbs
    intro hname
    have hall : ∀ v ∈ st.struct.vars,
        ¬(v.name == name && decide (((v.line : Int) - (ln : Int)).natAbs < 10)) = true := by
      intro v hv hvp
      exact hguard (List.any_eq_true.mpr ⟨v, hv, hvp⟩)
    have hna := hall a ha
    rw [Bool.and_eq_true, beq_iff_eq] at hna
    have hd : ¬ (((a.line : Int) - (ln : Int)).natAbs < 10) := by
      intro hlt
      exact hna ⟨hname, decide_eq_true hlt⟩
    omega


/-- Composition step for the scope-opening statements: visiting expressions
then a body from a state whose `current_class` is set, whose `classes` extends
the start state's, and whose `functions`/`variables` agree with it. -/
theorem inv_assemble (fuel : Nat)
    (ih : ∀ (st : VisitorState) (node : PyStmt), StmtInv st (visitStmt fuel st node))
    (st mid : VisitorState) (bases : List PyExpr) (body : List PyStmt)
    (hcc : mid.current_class.isSome = true)
    (hcl : ∃ pre, mid.struct.classes = st.struct.classes ++ pre)
    (hfn : mid.struct.functions = st.struct.functions)
    (hvv : mid.struct.vars = st.struct.vars) :
    (∃ suffix, (body.foldl (visitStmt fuel)
        (bases.foldl (visitExpr fuel) mid)).struct.classes =
      st.struct.classes ++ suffix) ∧
    ((body.foldl (visitStmt fuel)
        (bases.foldl (visitExpr fuel) mid)).struct.functions =
      st.struct.functions) ∧
    (VarsSeparated 10 st.struct.vars →
      VarsSeparated 10 (body.foldl (visitStmt fuel)
        (bases.foldl (visitExpr fuel) mid)).struct.vars) := by
  obtain ⟨e1, e2, e3, e4⟩ := foldl_ExprPres (visitExpr fuel) (visitExpr_pres fuel) bases mid
  obtain ⟨s1, ⟨suf, hsuf⟩, s3, s4⟩ := foldl_StmtInv (visitStmt fuel) ih body
    (bases.foldl (visitExpr fuel) mid)
  obtain ⟨pre, hpre⟩ := hcl
  refine ⟨⟨pre ++ suf, ?_⟩, ?_, fun hv => ?_⟩
  · rw [hsuf, e3, hpre, List.append_assoc]
  · rw [s3 (by rw [e1]; exact hcc), e2, hfn]
  · apply s4
    rw [e4, hvv]
    exact hv

/-- Every statement visit satisfies `StmtInv`, for every fuel value. -/
theorem visitStmt_inv : ∀ (fuel : Nat) (st : VisitorState) (node : PyStmt),
    StmtInv st (visitStmt fuel st node) := by
  intro fuel
  induction fuel with
  | zero => intro st node; exact stmtInvRefl st
  | succ fuel ih =>
    intro st node
    match node with
    | .classDef name bases body ln =>
        simp only [visitStmt]
        have h := inv_assemble fuel ih st
          { st with
            current_class := some name,
            class_stack := st.class_stack ++ [name],
            struct := { st.struct with classes := st.struct.classes ++
              [⟨name, ln, (classBodyScanAux ([], []) body).1,
                (classBodyScanAux ([], []) body).2, bases.map baseToStr,
                classLoc body⟩] },
            class_members_cache := cacheSet st.class_members_cache name
              (classBodyScanAux ([], []) body).2 }
          bases body rfl
          ⟨[⟨name, ln, (classBodyScanAux ([], []) body).1,
              (classBodyScanAux ([], []) body).2, bases.map baseToStr,
              classLoc body⟩], rfl⟩
          rfl rfl
        exact ⟨rfl, h.1, fun _ => h.2.1, h.2.2⟩
    | .functionDef name args body ln =>
        simp only [visitStmt]
        cases hcc : st.current_class with
        | none =>
            simp only [hcc]
            obtain ⟨s1, ⟨suf, hsuf⟩, s3, s4⟩ := foldl_StmtInv (visitStmt fuel) ih body
              { st with
                struct := { st.struct with functions :=
                  st.struct.functions ++ [⟨name, ln, args, false⟩] },
                current_class := none,
                current_function := some name,
                function_stack := st.function_stack ++ [name] }
            exact ⟨s1.trans hcc.symm, ⟨suf, hsuf⟩,
              fun hh => absurd (hcc ▸ hh) (by decide), s4⟩
        | some c =>
            simp only [hcc]
            obtain ⟨s1, ⟨suf, hsuf⟩, s3, s4⟩ := foldl_StmtInv (visitStmt fuel) ih body
              { st with
                current_class := some c,
                current_function := some (c ++ "." ++ name),
                function_stack := st.function_stack ++ [c ++ "." ++ name] }
            exact ⟨s1.trans hcc.symm, ⟨suf, hsuf⟩, fun _ => s3 rfl, s4⟩
    | .asyncFunctionDef name args body ln =>
        simp only [visitStmt]
        cases hcc : st.current_class with
        | none =>
            simp only [hcc]
            obtain ⟨s1, ⟨suf, hsuf⟩, s3, s4⟩ := foldl_StmtInv (visitStmt fuel) ih body
              { st with
                struct := { st.struct with functions :=
                  st.struct.functions ++ [⟨name, ln, args, true⟩] },
                current_class := none,
                current_function := some name,
                function_stack := st.function_stack ++ [name] }
            exact ⟨s1.trans hcc.symm, ⟨suf, hsuf⟩,
              fun hh => absurd (hcc ▸ hh) (by decide), s4⟩
        | some c =>
            simp only [hcc]
            obtain ⟨s1, ⟨suf, hsuf⟩, s3, s4⟩ := foldl_StmtInv (visitStmt fuel) ih body
              { st with
                current_class := some c,
                current_function := some (c ++ "." ++ name),
                function_stack := st.function_stack ++ [c ++ "." ++ name] }
            exact ⟨s1.trans hcc.symm, ⟨suf, hsuf⟩, fun _ => s3 rfl, s4⟩
    | .pyImport names ln =>
        exact ⟨rfl, ⟨[], (List.append_nil _).symm⟩, fun _ => rfl, id⟩
    | .pyImportFrom module ln =>
        cases module with
        | none => exact stmtInvRefl st
        | some m => exact ⟨rfl, ⟨[], (List.append_nil _).symm⟩, fun _ => rfl, id⟩
    | .forStmt target iter body ln =>
        exact stmtInvTrans ((visitExpr_pres fuel
            { st with struct := { st.struct with loops :=
                st.struct.loops ++ [⟨"for", ln⟩] } } target).toStmtInv)
          (stmtInvTrans ((visitExpr_pres fuel _ iter).toStmtInv)
            (foldl_StmtInv (visitStmt fuel) ih body _))
    | .asyncForStmt target iter body ln =>
        exact stmtInvTrans ((visitExpr_pres fuel
            { st with struct := { st.struct with loops :=
                st.struct.loops ++ [⟨"async_for", ln⟩] } } target).toStmtInv)
          (stmtInvTrans ((visitExpr_pres fuel _ iter).toStmtInv)
            (foldl_StmtInv (visitStmt fuel) ih body _))
    | .whileStmt test body ln =>
        exact stmtInvTrans ((visitExpr_pres fuel
            { st with struct := { st.struct with loops :=
                st.struct.loops ++ [⟨"while", ln⟩] } } test).toStmtInv)
          (foldl_StmtInv (visitStmt fuel) ih body _)
    | .assign targets value ln =>
        have h1 : StmtInv st (match st.current_class with
            | none => targets.foldl (fun s t => match t with
                | .name id _ _ => pushVar10 s id ln
                | _ => s) st
            | some _ => st) := by
          cases st.current_class with
          | some c => exact stmtInvRefl st
          | none =>
              refine foldl_StmtInv _ ?_ targets st
              intro s t
              match t with
              | .name id c l => exact pushVar10_inv s id ln
              | .attribute .. => exact stmtInvRefl s
              | .constant .. => exact stmtInvRefl s
              | .call .. => exact stmtInvRefl s
        exact stmtInvTrans h1 (stmtInvTrans
          ((foldl_ExprPres (visitExpr fuel) (visitExpr_pres fuel) targets _).toStmtInv)
          ((visitExpr_pres fuel _ value).toStmtInv))
    | .annAssign target value ln =>
        have h1 : StmtInv st (match st.current_class, target with
            | none, .name id _ _ => pushVar10 st id ln
            | _, _ => st) := by
          cases st.current_class with
          | some c =>
              match target with
              | .name id c2 l => exact stmtInvRefl st
              | .attribute .. => exact stmtInvRefl st
              | .constant .. => exact stmtInvRefl st
              | .call .. => exact stmtInvRefl st
          | none =>
              match target with
              | .name id c2 l => exact pushVar10_inv st id ln
              | .attribute .. => exact stmtInvRefl st
              | .constant .. => exact stmtInvRefl st
              | .call .. => exact stmtInvRefl st
        exact stmtInvTrans h1 (stmtInvTrans
          ((visitExpr_pres fuel _ target).toStmtInv)
          ((visitOptExpr_pres fuel _ value).toStmtInv))
    | .exprStmt value ln => exact (visitExpr_pres fuel st value).toStmtInv
    | .passStmt ln => exact stmtInvRefl st
    | .returnStmt value ln => exact (visitOptExpr_pres fuel st value).toStmtInv


/-! ## Heuristic-extractor block lemmas -/

theorem classBlock_vars (ext : String) (n : Nat) (l : String) (st : RegexSt) :
    (classBlock ext n l st).struct.vars = st.struct.vars := by
  unfold classBlock
  repeat' split
  all_goals rfl

theorem funcBlock_vars (ext : String) (n : Nat) (l : String) (st : RegexSt) :
    (funcBlock ext n l st).struct.vars = st.struct.vars := by
  unfold funcBlock
  repeat' split
  all_goals rfl

theorem loopBlock_vars (ext : String) (n : Nat) (l : String) (st : RegexSt) :
    (loopBlock ext n l st).struct.vars = st.struct.vars := by
  unfold loopBlock
  repeat' split
  all_goals rfl

theorem braceBlock_vars (l : String) (st : RegexSt) :
    (braceBlock l st).struct.vars = st.struct.vars := by
  unfold braceBlock
  split
  · show (if st.brace_count + (countChar l '\x7b' : Int) - (countChar l '\x7d' : Int) ≤ 0
      then ({ st with
        brace_count := st.brace_count + (countChar l '\x7b' : Int) -
          (countChar l '\x7d' : Int),
        in_class := false, current_class := none } : RegexSt)
      else { st with brace_count := st.brace_count + (countChar l '\x7b' : Int) -
        (countChar l '\x7d' : Int) }).struct.vars = st.struct.vars
    split <;> rfl
  · rfl

/-- Appending a record that passed the window guard keeps the separation. -/
theorem varsSep_append (w : Nat) (vars : List VarRec) (name : String) (ln : Nat)
    (h : VarsSeparated w vars)
    (hguard : ¬ varWindowHit vars name ln w = true) :
    VarsSeparated w (vars ++ [⟨name, ln⟩]) := by
  unfold VarsSeparated at h ⊢
  rw [List.pairwise_append]
  refine ⟨h, List.pairwise_singleton _ _, ?_⟩
  intro a ha b hb
  rw [List.mem_singleton] at hb
  subst hb
  show a.name = name → w ≤ ((a.line : Int) - (ln : Int)).natAbs
  intro hname
  have hall : ∀ v ∈ vars,
      ¬(v.name == name && decide (((v.line : Int) - (ln : Int)).natAbs < w)) = true := by
    intro v hv hvp
    exact hguard (List.any_eq_true.mpr ⟨v, hv, hvp⟩)
  have hna := hall a ha
  rw [Bool.and_eq_true, beq_iff_eq] at hna
  have hd : ¬ (((a.line : Int) - (ln : Int)).natAbs < w) := by
    intro hlt
    exact hna ⟨hname, decide_eq_true hlt⟩
  omega

theorem varBlock_vars (ext : String) (n : Nat) (l : String) (st : RegexSt)
    (h : VarsSeparated 5 st.struct.vars) :
    VarsSeparated 5 (varBlock ext n l st).struct.vars := by
  unfold varBlock
  repeat' split
  all_goals first
    | exact h
    | (rename_i hguard; exact varsSep_append 5 st.struct.vars _ n h hguard)

theorem processLine_vars (ext : String) (n : Nat) (l : String) (st : RegexSt)
    (h : VarsSeparated 5 st.struct.vars) :
    VarsSeparated 5 (processLine ext n l st).struct.vars := by
  unfold processLine
  rw [braceBlock_vars]
  apply varBlock_vars
  rw [loopBlock_vars, funcBlock_vars, classBlock_vars]
  exact h

theorem runLines_vars (ext : String) :
    ∀ (ls : List String) (st : RegexSt) (n : Nat),
      VarsSeparated 5 st.struct.vars →
      VarsSeparated 5 (runLines ext st n ls).struct.vars
  | [], _, _, h => h
  | l :: rest, st, n, h =>
      runLines_vars ext rest (processLine ext n l st) (n + 1)
        (processLine_vars ext n l st h)

theorem classBlock_functions (ext : String) (n : Nat) (l : String) (st : RegexSt) :
    (classBlock ext n l st).struct.functions = st.struct.functions := by
  unfold classBlock
  repeat' split
  all_goals rfl

theorem loopBlock_functions (ext : String) (n : Nat) (l : String) (st : RegexSt) :
    (loopBlock ext n l st).struct.functions = st.struct.functions := by
  unfold loopBlock
  repeat' split
  all_goals rfl

theorem varBlock_functions (ext : String) (n : Nat) (l : String) (st : RegexSt) :
    (varBlock ext n l st).struct.functions = st.struct.functions := by
  unfold varBlock
  repeat' split
  all_goals rfl

theorem braceBlock_functions (l : String) (st : RegexSt) :
    (braceBlock l st).struct.functions = st.struct.functions := by
  unfold braceBlock
  split
  · show (if st.brace_count + (countChar l '\x7b' : Int) - (countChar l '\x7d' : Int) ≤ 0
      then ({ st with
        brace_count := st.brace_count + (countChar l '\x7b' : Int) -
          (countChar l '\x7d' : Int),
        in_class := false, current_class := none } : RegexSt)
      else { st with brace_count := st.brace_count + (countChar l '\x7b' : Int) -
        (countChar l '\x7d' : Int) }).struct.functions = st.struct.functions
    split <;> rfl
  · rfl

/-- The function block either leaves `functions` alone (no match, or the name
went to a class's `methods`) or appends one record whose line is the current
line number and whose async flag is the substring test on the line. -/
theorem funcBlock_functions (ext : String) (n : Nat) (l : String) (st : RegexSt) :
    (funcBlock ext n l st).struct.functions = st.struct.functions ∨
    ∃ fname params, (funcBlock ext n l st).struct.functions =
      st.struct.functions ++ [⟨fname, n, params, strContains l "async"⟩] := by
  unfold funcBlock
  repeat' split
  all_goals first
    | exact Or.inl rfl
    | exact Or.inr ⟨_, _, rfl⟩

theorem processLine_functions (ext : String) (n : Nat) (l : String) (st : RegexSt) :
    (processLine ext n l st).struct.functions = st.struct.functions ∨
    ∃ fname params, (processLine ext n l st).struct.functions =
      st.struct.functions ++ [⟨fname, n, params, strContains l "async"⟩] := by
  unfold processLine
  rw [braceBlock_functions, varBlock_functions, loopBlock_functions]
  rcases funcBlock_functions ext n l (classBlock ext n l st) with h | ⟨f, p, h⟩
  · rw [h, classBlock_functions]
    exact Or.inl rfl
  · rw [h, classBlock_functions]
    exact Or.inr ⟨f, p, rfl⟩

theorem runLines_functions (ext : String) :
    ∀ (ls : List String) (st : RegexSt) (n : Nat),
      ∀ rec ∈ (runLines ext st n ls).struct.functions,
        rec ∈ st.struct.functions ∨
        ∃ i, ∃ h : i < ls.length, rec.line = n + i ∧
          rec.async = strContains (ls.get ⟨i, h⟩) "async"
  | [], _, _, _, hrec => Or.inl hrec
  | l :: rest, st, n, rec, hrec => by
      rcases runLines_functions ext rest (processLine ext n l st) (n + 1) rec hrec with
        h | ⟨i, hi, hline, hasync⟩
      · rcases processLine_functions ext n l st with hpf | ⟨f, p, hpf⟩
        · rw [hpf] at h
          exact Or.inl h
        · rw [hpf] at h
          rcases List.mem_append.mp h with h2 | h2
          · exact Or.inl h2
          · rw [List.mem_singleton] at h2
            subst h2
            refine Or.inr ⟨0, by simp, by simp, ?_⟩
            simp [List.get]
      · refine Or.inr ⟨i + 1, by simpa using hi, by omega, ?_⟩
        simpa using hasync

/-! ## Claim theorems C5, C8, C10 -/

/-- The names of the function and async-function definitions placed directly
in a class body. -/
def methodNames (body : List PyStmt) : List String :=
  body.filterMap (fun s => match s with
    | .functionDef n _ _ _ => some n
    | .asyncFunctionDef n _ _ _ => some n
    | _ => none)

theorem classBodyScan_methods :
    ∀ (body : List PyStmt) (acc : List String × List String),
      (classBodyScanAux acc body).1 = acc.1 ++ methodNames body
  | [], acc => by simp [classBodyScanAux, methodNames]
  | item :: rest, acc => by
      unfold classBodyScanAux
      cases item with
      | functionDef n a b ll =>
          rw [classBodyScan_methods rest (acc.1 ++ [n], acc.2)]
          simp [methodNames]
      | asyncFunctionDef n a b ll =>
          rw [classBodyScan_methods rest (acc.1 ++ [n], acc.2)]
          simp [methodNames]
      | classDef nm bs bd ll =>
          rw [classBodyScan_methods rest acc]
          simp [methodNames]
      | pyImport ns ll =>
          rw [classBodyScan_methods rest acc]
          simp [methodNames]
      | pyImportFrom md ll =>
          rw [classBodyScan_methods rest acc]
          simp [methodNames]
      | forStmt t it bd ll =>
          rw [classBodyScan_methods rest acc]
          simp [methodNames]
      | asyncForStmt t it bd ll =>
          rw [classBodyScan_methods rest acc]
          simp [methodNames]
      | whileStmt t bd ll =>
          rw [classBodyScan_methods rest acc]
          simp [methodNames]
      | assign ts v ll =>
          rw [classBodyScan_methods rest (acc.1, ts.foldl assignTargetMembers acc.2)]
          simp [methodNames]
      | annAssign t v ll =>
          rw [classBodyScan_methods rest (acc.1, assignTargetMembers acc.2 t)]
          simp [methodNames]
      | exprStmt v ll =>
          rw [classBodyScan_methods rest acc]
          simp [methodNames]
      | passStmt ll =>
          rw [classBodyScan_methods rest acc]
          simp [methodNames]
      | returnStmt v ll =>
          rw [classBodyScan_methods rest acc]
          simp [methodNames]

/-- C5: visiting a class definition never appends to the file-level
`functions` list — anywhere inside the class, function and async-function
definitions leave `functions` untouched — and the class's record carries
exactly the names of its directly declared (async) function definitions as
`methods`. -/
theorem c5_methods_not_in_functions (fuel : Nat) (st : VisitorState)
    (name : String) (bases : List PyExpr) (body : List PyStmt) (ln : Nat) :
    (visitStmt (fuel + 1) st (.classDef name bases body ln)).struct.functions =
      st.struct.functions ∧
    (∃ suffix,
      (visitStmt (fuel + 1) st (.classDef name bases body ln)).struct.classes =
        st.struct.classes ++
          (⟨name, ln, (classBodyScanAux ([], []) body).1,
            (classBodyScanAux ([], []) body).2, bases.map baseToStr,
            classLoc body⟩ : ClassRec) :: suffix) ∧
    (classBodyScanAux ([], []) body).1 = methodNames body := by
  simp only [visitStmt]
  obtain ⟨e1, e2, e3, e4⟩ := foldl_ExprPres (visitExpr fuel) (visitExpr_pres fuel) bases
    { st with
      current_class := some name,
      class_stack := st.class_stack ++ [name],
      struct := { st.struct with classes := st.struct.classes ++
        [⟨name, ln, (classBodyScanAux ([], []) body).1,
          (classBodyScanAux ([], []) body).2, bases.map baseToStr,
          classLoc body⟩] },
      class_members_cache := cacheSet st.class_members_cache name
        (classBodyScanAux ([], []) body).2 }
  obtain ⟨s1, ⟨suf, hsuf⟩, s3, s4⟩ := foldl_StmtInv (visitStmt fuel) (visitStmt_inv fuel)
    body _
  refine ⟨?_, ⟨suf, ?_⟩, by simpa using classBodyScan_methods body ([], [])⟩
  · exact (s3 (by rw [e1]; rfl)).trans e2
  · show (body.foldl (visitStmt fuel) _).struct.classes =
      st.struct.classes ++ _ :: suf
    rw [hsuf, e3]
    show (st.struct.classes ++
      [(⟨name, ln, (classBodyScanAux ([], []) body).1,
        (classBodyScanAux ([], []) body).2, bases.map baseToStr,
        classLoc body⟩ : ClassRec)]) ++ suf = _
    rw [List.append_assoc]
    rfl

/-- C8: the variable deduplication windows — in every structure built by the
precise (AST) path no two same-named variable records lie within 10 lines of
each other, and in every structure built by the heuristic (regex) path the
window is 5 lines. -/
theorem c8_variable_dedup_windows :
    (∀ (file_path content : String) (tree : List PyStmt),
      VarsSeparated 10 (analyze_python_file file_path content (some tree)).vars) ∧
    (∀ (file_path content : String),
      VarsSeparated 5 (analyze_file_with_regex file_path content).vars) := by
  constructor
  · intro fp content tree
    have h := foldl_StmtInv (visitStmt (stmtListSize tree))
      (visitStmt_inv (stmtListSize tree)) tree (initVisitorState fp)
    exact h.2.2.2 List.Pairwise.nil
  · intro fp content
    show VarsSeparated 5 (if ((lookupTab CLASS_PATTERNS (splitextExt fp)).isNone &&
        (lookupTab FUNCTION_PATTERNS (splitextExt fp)).isNone) = true then
        CodeStructure.empty fp else (heuristicRun fp content).struct).vars
    by_cases hext : ((lookupTab CLASS_PATTERNS (splitextExt fp)).isNone &&
        (lookupTab FUNCTION_PATTERNS (splitextExt fp)).isNone) = true
    · rw [if_pos hext]
      exact List.Pairwise.nil
    · rw [if_neg hext]
      exact runLines_vars _ _ _ _ List.Pairwise.nil

/-- C10: in heuristic mode every produced function record's async flag equals
the literal substring test `'async' in line` on its declaration line — hence
the non-async Java declaration `void async_helper() {` yields a record
flagged async, because its name contains the substring. -/
theorem c10_heuristic_async_flag :
    (∀ (file_path content : String),
      ∀ rec ∈ (analyze_file_with_regex file_path content).functions,
        ∃ i, ∃ h : i < (splitOnChar '\n' content).length,
          rec.line = 1 + i ∧
          rec.async = strContains ((splitOnChar '\n' content).get ⟨i, h⟩) "async") ∧
    (analyze_file_with_regex "x.java" "void async_helper() \x7b").functions =
      [⟨"async_helper", 1, [], true⟩] := by
  constructor
  · intro fp content rec hrec
    have hrec2 : rec ∈ (if ((lookupTab CLASS_PATTERNS (splitextExt fp)).isNone &&
        (lookupTab FUNCTION_PATTERNS (splitextExt fp)).isNone) = true then
        CodeStructure.empty fp else (heuristicRun fp content).struct).functions := hrec
    by_cases hext : ((lookupTab CLASS_PATTERNS (splitextExt fp)).isNone &&
        (lookupTab FUNCTION_PATTERNS (splitextExt fp)).isNone) = true
    · rw [if_pos hext] at hrec2
      exact absurd hrec2 (List.not_mem_nil rec)
    · rw [if_neg hext] at hrec2
      rcases runLines_functions (splitextExt fp) (splitOnChar '\n' content)
        (initRegexSt fp) 1 rec hrec2 with h | h
      · exact absurd h (List.not_mem_nil rec)
      · exact h
  · decide

/-- Witness for C10 at the concrete Java line `void async_helper() {`. -/
theorem c10_heuristic_async_flag_witness :
    ((⟨"async_helper", 1, [], true⟩ : FuncRec) ∈
      (analyze_file_with_regex "x.java" "void async_helper() \x7b").functions) ∧
    (∃ i, ∃ h : i < (splitOnChar '\n' "void async_helper() \x7b").length,
      (⟨"async_helper", 1, [], true⟩ : FuncRec).line = 1 + i ∧
      (⟨"async_helper", 1, [], true⟩ : FuncRec).async =
        strContains ((splitOnChar '\n' "void async_helper() \x7b").get ⟨i, h⟩)
          "async") := by
  have hmem : (⟨"async_helper", 1, [], true⟩ : FuncRec) ∈
      (analyze_file_with_regex "x.java" "void async_helper() \x7b").functions := by
    decide
  exact ⟨hmem, c10_heuristic_async_flag.1 "x.java" "void async_helper() \x7b" _ hmem⟩


/-! ## Statistics lemmas (C9) -/

/-- The usage total one structure contributes for a class name: the summed
lengths of the usage lists stored under that name. -/
def usageIn (st : CodeStructure) (n : String) : Nat :=
  ((st.class_usage.filter (fun q => q.1 == n)).map (fun q => q.2.length)).sum

/-- The total usage count of a class name: the sum of its usage-list lengths
across all structures. -/
def totalUsage (bps : List CodeStructure) (n : String) : Nat :=
  (bps.map (fun st => usageIn st n)).sum

theorem lookupNat_bumpCount (k k' : String) (n : Nat) :
    ∀ (m : List (String × Nat)),
      lookupNat (bumpCount m k n) k' = lookupNat m k' + if k' = k then n else 0
  | [] => by
      by_cases h : k' = k
      · subst h; simp [bumpCount, lookupNat, lookupTab]
      · simp [bumpCount, lookupNat, lookupTab, h, Ne.symm h]
  | (k1, c) :: rest => by
      by_cases h1 : k1 = k
      · subst h1
        by_cases h2 : k' = k1
        · subst h2; simp [bumpCount, lookupNat, lookupTab]
        · simp [bumpCount, lookupNat, lookupTab, h2, Ne.symm h2]
      · by_cases h2 : k' = k1
        · subst h2
          have h1s : k ≠ k' := fun hh => h1 hh.symm
          simp [bumpCount, lookupNat, lookupTab, h1, h1s]
        · have ih := lookupNat_bumpCount k k' n rest
          simp only [bumpCount, if_neg h1, lookupNat, lookupTab,
            if_neg (Ne.symm h2)]
          exact ih

theorem lookupNat_usage_fold (k : String) :
    ∀ (l : List (String × List String)) (m : List (String × Nat)),
      lookupNat (l.foldl (fun m q => bumpCount m q.1 q.2.length) m) k =
        lookupNat m k + ((l.filter (fun q => q.1 == k)).map (fun q => q.2.length)).sum
  | [], m => by simp
  | q :: rest, m => by
      simp only [List.foldl_cons]
      rw [lookupNat_usage_fold k rest (bumpCount m q.1 q.2.length),
        lookupNat_bumpCount]
      by_cases h : k = q.1
      · simp [List.filter_cons, h, beq_iff_eq]
        omega
      · have hb : ¬ (q.1 == k) = true := by
          intro hh
          exact h (beq_iff_eq.mp hh).symm
        simp [List.filter_cons, h, hb]

theorem lookupNat_reuse_fold (k : String) :
    ∀ (bps : List CodeStructure) (m : List (String × Nat)),
      lookupNat (bps.foldl
        (fun m st => st.class_usage.foldl (fun m q => bumpCount m q.1 q.2.length) m) m) k =
        lookupNat m k + totalUsage bps k
  | [], m => by simp [totalUsage]
  | st :: bps, m => by
      simp only [List.foldl_cons]
      rw [lookupNat_reuse_fold k bps _, lookupNat_usage_fold k st.class_usage m]
      simp [totalUsage, usageIn]
      omega

theorem mem_keys_bumpCount (k x : String) (n : Nat) :
    ∀ (m : List (String × Nat)),
      x ∈ (bumpCount m k n).map Prod.fst → x = k ∨ x ∈ m.map Prod.fst
  | [], hm => by
      simp [bumpCount] at hm
      exact Or.inl hm
  | (k1, c) :: rest, hm => by
      by_cases h1 : k1 = k
      · subst h1
        have he : bumpCount ((k1, c) :: rest) k1 n = (k1, c + n) :: rest := by
          simp [bumpCount]
        rw [he, List.map_cons] at hm
        rcases List.mem_cons.mp hm with h | h
        · exact Or.inl h
        · exact Or.inr (by rw [List.map_cons]; exact List.mem_cons_of_mem _ h)
      · have he : bumpCount ((k1, c) :: rest) k n = (k1, c) :: bumpCount rest k n := by
          simp [bumpCount, h1]
        rw [he, List.map_cons] at hm
        rcases List.mem_cons.mp hm with h | h
        · exact Or.inr (by rw [List.map_cons]; exact List.mem_cons.mpr (Or.inl h))
        · rcases mem_keys_bumpCount k x n rest h with h2 | h2
          · exact Or.inl h2
          · exact Or.inr (by rw [List.map_cons]; exact List.mem_cons_of_mem _ h2)

theorem bumpCount_keys_nodup (k : String) (n : Nat) :
    ∀ (m : List (String × Nat)),
      (m.map Prod.fst).Nodup → ((bumpCount m k n).map Prod.fst).Nodup
  | [], _ => by simp [bumpCount]
  | (k1, c) :: rest, hnd => by
      rw [List.map_cons] at hnd
      have hnd1 : k1 ∉ rest.map Prod.fst := (List.nodup_cons.mp hnd).1
      have hnd2 : (rest.map Prod.fst).Nodup := (List.nodup_cons.mp hnd).2
      by_cases h1 : k1 = k
      · subst h1
        have he : bumpCount ((k1, c) :: rest) k1 n = (k1, c + n) :: rest := by
          simp [bumpCount]
        rw [he, List.map_cons]
        exact List.nodup_cons.mpr ⟨hnd1, hnd2⟩
      · have ih := bumpCount_keys_nodup k n rest hnd2
        have he : bumpCount ((k1, c) :: rest) k n = (k1, c) :: bumpCount rest k n := by
          simp [bumpCount, h1]
        rw [he, List.map_cons]
        refine List.nodup_cons.mpr ⟨?_, ih⟩
        intro hmem
        rcases mem_keys_bumpCount k k1 n rest hmem with h | h
        · exact h1 h
        · exact hnd1 h

theorem usage_fold_keys_nodup :
    ∀ (l : List (String × List String)) (m : List (String × Nat)),
      (m.map Prod.fst).Nodup →
      ((l.foldl (fun m q => bumpCount m q.1 q.2.length) m).map Prod.fst).Nodup
  | [], _, h => h
  | q :: rest, m, h =>
      usage_fold_keys_nodup rest _ (bumpCount_keys_nodup q.1 q.2.length m h)

theorem reuse_fold_keys_nodup :
    ∀ (bps : List CodeStructure) (m : List (String × Nat)),
      (m.map Prod.fst).Nodup →
      ((bps.foldl (fun m st =>
        st.class_usage.foldl (fun m q => bumpCount m q.1 q.2.length) m) m).map
          Prod.fst).Nodup
  | [], _, h => h
  | st :: bps, m, h =>
      reuse_fold_keys_nodup bps _ (usage_fold_keys_nodup st.class_usage m h)

theorem class_reuse_count_keys_nodup (bps : List CodeStructure) :
    ((class_reuse_count bps).map Prod.fst).Nodup := by
  unfold class_reuse_count
  exact reuse_fold_keys_nodup bps [] (by simp)

/-- Every entry of `class_reuse_count` is the class's total usage. -/
theorem class_reuse_count_val (bps : List CodeStructure) :
    ∀ p ∈ class_reuse_count bps, p.2 = totalUsage bps p.1 := by
  intro p hp
  have hlk : lookupTab (class_reuse_count bps) p.1 = some p.2 :=
    lookupTab_of_mem_nodup p.1 p.2 (class_reuse_count bps) hp
      (class_reuse_count_keys_nodup bps)
  have hln : lookupNat (class_reuse_count bps) p.1 = totalUsage bps p.1 := by
    unfold class_reuse_count
    rw [lookupNat_reuse_fold]
    simp [lookupNat, lookupTab]
  unfold lookupNat at hln
  rw [hlk] at hln
  simpa using hln

/-- Sorted by count, descending. -/
def SortedD (l : List (String × Nat)) : Prop :=
  List.Pairwise (fun a b : String × Nat => b.2 ≤ a.2) l

theorem mem_insertDesc (x y : String × Nat) :
    ∀ (l : List (String × Nat)), y ∈ insertDesc x l ↔ y = x ∨ y ∈ l
  | [] => by simp [insertDesc]
  | z :: zs => by
      unfold insertDesc
      by_cases h : x.2 ≤ z.2
      · rw [if_pos h]
        rw [List.mem_cons, mem_insertDesc x y zs, List.mem_cons]
        tauto
      · rw [if_neg h]
        rw [List.mem_cons, List.mem_cons]

theorem insertDesc_sorted (x : String × Nat) :
    ∀ (l : List (String × Nat)), SortedD l → SortedD (insertDesc x l)
  | [], _ => List.pairwise_singleton _ _
  | z :: zs, h => by
      have hz := (List.pairwise_cons.mp h).1
      have hzs := (List.pairwise_cons.mp h).2
      unfold insertDesc
      by_cases hc : x.2 ≤ z.2
      · rw [if_pos hc]
        refine List.pairwise_cons.mpr ⟨?_, insertDesc_sorted x zs hzs⟩
        intro y hy
        rcases (mem_insertDesc x y zs).mp hy with h1 | h1
        · rw [h1]; exact hc
        · exact hz y h1
      · rw [if_neg hc]
        refine List.pairwise_cons.mpr ⟨?_, h⟩
        intro y hy
        rcases List.mem_cons.mp hy with h1 | h1
        · rw [h1]; omega
        · have := hz y h1
          omega

theorem sort_fold_sorted :
    ∀ (l : List (String × Nat)) (acc : List (String × Nat)),
      SortedD acc → SortedD (l.foldl (fun a x => insertDesc x a) acc)
  | [], _, h => h
  | x :: rest, acc, h =>
      sort_fold_sorted rest (insertDesc x acc) (insertDesc_sorted x acc h)

theorem sortByCountDesc_sorted (l : List (String × Nat)) :
    SortedD (sortByCountDesc l) :=
  sort_fold_sorted l [] List.Pairwise.nil

theorem mem_sort_fold (y : String × Nat) :
    ∀ (l : List (String × Nat)) (acc : List (String × Nat)),
      y ∈ l.foldl (fun a x => insertDesc x a) acc ↔ y ∈ acc ∨ y ∈ l
  | [], acc => by simp
  | x :: rest, acc => by
      simp only [List.foldl_cons]
      rw [mem_sort_fold y rest (insertDesc x acc), mem_insertDesc]
      simp only [List.mem_cons]
      tauto

/-- Stability of the insertion at one count value: inserting into a sorted
list appends the new element after its equals. -/
theorem filter_insertDesc (c : Nat) (x : String × Nat) :
    ∀ (l : List (String × Nat)), SortedD l →
      (insertDesc x l).filter (fun p => p.2 == c) =
        if x.2 == c then l.filter (fun p => p.2 == c) ++ [x]
        else l.filter (fun p => p.2 == c)
  | [], _ => by
      by_cases h : (x.2 == c) = true
      · simp [insertDesc, List.filter, h]
      · simp [insertDesc, List.filter, h]
  | z :: zs, hs => by
      have hz := (List.pairwise_cons.mp hs).1
      have hzs := (List.pairwise_cons.mp hs).2
      unfold insertDesc
      by_cases hc : x.2 ≤ z.2
      · rw [if_pos hc]
        by_cases hzc : (z.2 == c) = true
        · simp only [List.filter_cons, hzc, if_pos]
          rw [filter_insertDesc c x zs hzs]
          by_cases hxc : (x.2 == c) = true
          · simp [hxc]
          · simp [hxc]
        · simp only [List.filter_cons]
          rw [if_neg (by simp [hzc]), filter_insertDesc c x zs hzs]
          by_cases hxc : (x.2 == c) = true
          · simp [hxc, hzc]
          · simp [hxc, hzc]
      · rw [if_neg hc]
        by_cases hxc : (x.2 == c) = true
        · have hxc2 : x.2 = c := beq_iff_eq.mp hxc
          have hnil : (z :: zs).filter (fun p => p.2 == c) = [] := by
            rw [List.filter_eq_nil_iff]
            intro a ha hac
            have ha2 : a.2 = c := beq_iff_eq.mp hac
            rcases List.mem_cons.mp ha with h1 | h1
            · subst h1
              omega
            · have := hz a h1
              omega
          simp [List.filter_cons, hxc, hnil]
        · simp [List.filter_cons, hxc]


theorem filter_sort_fold (c : Nat) :
    ∀ (l : List (String × Nat)) (acc : List (String × Nat)), SortedD acc →
      (l.foldl (fun a x => insertDesc x a) acc).filter (fun p => p.2 == c) =
        acc.filter (fun p => p.2 == c) ++ l.filter (fun p => p.2 == c)
  | [], acc, _ => by simp
  | x :: rest, acc, hs => by
      simp only [List.foldl_cons]
      rw [filter_sort_fold c rest (insertDesc x acc) (insertDesc_sorted x acc hs),
        filter_insertDesc c x acc hs]
      by_cases hxc : (x.2 == c) = true
      · simp [hxc, List.filter_cons]
      · simp [hxc, List.filter_cons]

/-- C9: `most_reused_classes` is a sequence of at most ten
`(class_name, usage_count)` pairs whose counts are the summed usage-list
lengths across all files, ordered by count descending; the sort is stable —
restricted to any fixed count value it coincides with the encounter order of
`class_reuse_count` (whose keys appear in first-encounter order of the
traversal); and the emitted list is exactly the first ten entries of the
sorted sequence. -/
theorem c9_most_reused_classes (bps : List CodeStructure) :
    (most_reused_classes bps).length ≤ 10 ∧
    List.Pairwise (fun a b : String × Nat => b.2 ≤ a.2) (most_reused_classes bps) ∧
    (∀ p ∈ most_reused_classes bps, p.2 = totalUsage bps p.1) ∧
    (∀ c : Nat, (sortByCountDesc (class_reuse_count bps)).filter (fun p => p.2 == c) =
      (class_reuse_count bps).filter (fun p => p.2 == c)) ∧
    most_reused_classes bps = (sortByCountDesc (class_reuse_count bps)).take 10 := by
  refine ⟨?_, ?_, ?_, ?_, rfl⟩
  · unfold most_reused_classes
    rw [List.length_take]
    exact min_le_left _ _
  · unfold most_reused_classes
    exact (sortByCountDesc_sorted (class_reuse_count bps)).sublist
      (List.take_sublist _ _)
  · intro p hp
    have hp2 : p ∈ sortByCountDesc (class_reuse_count bps) := by
      unfold most_reused_classes at hp
      exact List.mem_of_mem_take hp
    have hp3 : p ∈ class_reuse_count bps := by
      unfold sortByCountDesc at hp2
      exact ((mem_sort_fold p (class_reuse_count bps) []).mp hp2).resolve_left
        (List.not_mem_nil p)
    exact class_reuse_count_val bps p hp3
  · intro c
    unfold sortByCountDesc
    rw [filter_sort_fold c (class_reuse_count bps) [] List.Pairwise.nil]
    simp


def c9bps : List CodeStructure :=
  [⟨"b.py", [], [], [], [], [], [("W", ["a.py", "c.py"])], []⟩]

/-- Witness for C9 on a blueprint where class `W` is used by two files. -/
theorem c9_most_reused_classes_witness :
    (("W", 2) ∈ most_reused_classes c9bps) ∧
    (("W", 2) : String × Nat).2 = totalUsage c9bps ("W", 2).1 := by
  refine ⟨by decide, ?_⟩
  exact (c9_most_reused_classes c9bps).2.2.1 ("W", 2) (by decide)

end NB
